import Mathlib

/-!
# BelligerentBlocks `Platform.cpp`: event dispatch and the local leaderboard

A shallow embedding of `src/BelligerentBlocks/src/Platform.cpp`.

* The member variables of `blocks::Platform` become the fields of the
  structure `Platform`; the contents of the `scores` table behind `m_db` is the
  field `db`.
* Everything the class does to the outside world is recorded in a list of
  `Effect`s: a line printed on `stderr` or a call of a `PlatformEventHandler`
  method.
* The two external libraries are modelled as far as the code uses them.  The
  return codes of the SQLite calls are inputs (`InsertRcs`, `SelectRcs`), the
  order in which `ORDER BY score DESC` lists rows of equal score is left to an
  arbitrary `Engine`, and the numeric constants of the BPS headers are the
  fields of `Bps`.
* A C `int` is an `Int` in the range `INT_MIN .. INT_MAX`; a `double` that
  holds a whole number is the `Int` it holds (every `int` converts to `double`
  exactly).  Non-integral doubles are outside the model.
-/

namespace blocks

/-! ## SQLite: result codes, rows, queries -/

/-- Result code `SQLITE_OK` of `sqlite3.h`. -/
def SQLITE_OK : Int := 0

/-- Result code `SQLITE_ROW` of `sqlite3.h`. -/
def SQLITE_ROW : Int := 100

/-- Result code `SQLITE_DONE` of `sqlite3.h`. -/
def SQLITE_DONE : Int := 101

/-- Smallest value of a C `int`. -/
def INT_MIN : Int := -2147483648

/-- Largest value of a C `int`. -/
def INT_MAX : Int := 2147483647

/-- Smallest value of a 64-bit signed integer. -/
def INT64_MIN : Int := -9223372036854775808

/-- Largest value of a 64-bit signed integer. -/
def INT64_MAX : Int := 9223372036854775807

/-- One row of the table `scores(name, score)`, with its `ROWID`.  The score
is the whole number held by the stored `double`. -/
structure Row where
  rowid : Nat
  name : String
  score : Int
deriving DecidableEq, Repr

/-- Contents of the table `scores`. -/
abbrev Table := List Row

/-- A table is well formed when no two rows share a `ROWID`. -/
def Table.WF (t : Table) : Prop := (t.map Row.rowid).Nodup

instance (t : Table) : Decidable (Table.WF t) := by
  unfold Table.WF; infer_instance

/-- What SQLite does for `ORDER BY score DESC`: some rearrangement of the rows
with the scores non-increasing.  How rows of equal score are ordered is up to
the engine. -/
structure Engine where
  orderByScoreDesc : List Row → List Row
  perm : ∀ t, (orderByScoreDesc t).Perm t
  sorted : ∀ t, (orderByScoreDesc t).Pairwise (fun a b => b.score ≤ a.score)

/-- An engine that keeps rows of equal score in table order. -/
def stableEngine : Engine where
  orderByScoreDesc t := t.insertionSort (fun a b => b.score ≤ a.score)
  perm t := List.perm_insertionSort _ t
  sorted t := by
    haveI : IsTotal Row (fun a b => b.score ≤ a.score) := ⟨fun a b => le_total b.score a.score⟩
    haveI : IsTrans Row (fun a b => b.score ≤ a.score) := ⟨fun _ _ _ h1 h2 => le_trans h2 h1⟩
    exact List.sorted_insertionSort _ t

/-- The `ROWID` SQLite gives a newly inserted row: one more than the largest
in the table. -/
def nextRowid (t : Table) : Nat := (t.map Row.rowid).foldr max 0 + 1

/-- Effect of a completed `INSERT INTO 'scores' values (?, ?)`. -/
def sqlInsert (t : Table) (name : String) (score : Int) : Table :=
  t ++ [⟨nextRowid t, name, score⟩]

/-- Rows of `SELECT ... FROM 'scores' ORDER BY score DESC LIMIT 5`. -/
def sqlTop5 (E : Engine) (t : Table) : List Row := (E.orderByScoreDesc t).take 5

/-- Effect of a completed
`DELETE FROM 'scores' WHERE ROWID NOT IN (SELECT ROWID FROM 'scores' ORDER BY score DESC LIMIT 5)`. -/
def sqlPurge (E : Engine) (t : Table) : Table :=
  t.filter (fun r => decide (r.rowid ∈ (sqlTop5 E t).map Row.rowid))

/-- Value returned by `sqlite3_column_int` for a stored number: it is converted to a
64-bit integer (saturating) and the low 32 bits are returned as an `int`. -/
def sqlite3_column_int (v : Int) : Int :=
  (max INT64_MIN (min INT64_MAX v) + 2147483648) % 4294967296 - 2147483648

/-- Return codes of the SQLite calls made by one `submitLocalScore`, in call order. -/
structure InsertRcs where
  prepare : Int
  bindText : Int
  bindDouble : Int
  step : Int
  purgePrepare : Int
  purgeStep : Int
deriving DecidableEq, Repr

/-- Every statement of `submitLocalScore` succeeds. -/
def InsertRcs.ok : InsertRcs :=
  ⟨SQLITE_OK, SQLITE_OK, SQLITE_OK, SQLITE_DONE, SQLITE_OK, SQLITE_DONE⟩

/-- Outcome of the SQLite calls made by one `fetchLocalScores`: the return code of
the prepare and, when a `sqlite3_step` fails, the number of rows stepped before it. -/
structure SelectRcs where
  prepare : Int
  rowsBeforeError : Option Nat
deriving DecidableEq, Repr

/-- The select statement prepares and steps to `SQLITE_DONE`. -/
def SelectRcs.ok : SelectRcs := ⟨SQLITE_OK, none⟩

/-- Rows for which `sqlite3_step` returns `SQLITE_ROW` in `fetchLocalScores`. -/
def sqlSelectRows (E : Engine) (o : SelectRcs) (t : Table) : List Row :=
  match o.rowsBeforeError with
  | none => sqlTop5 E t
  | some k => (sqlTop5 E t).take k

/-! ## Data model and effects -/

/-- Entry of the leaderboard: `Score(rank, name, value)`. -/
structure Score where
  rank : Int
  name : String
  value : Int
deriving DecidableEq, Repr

/-- Lines written to `stderr`. -/
inductive LogLine where
  | bpsGetEventError
  | unrecognizedEvent (domain code : Int)
  | alreadyFetchingUser
  | sqlitePrepareError (rc : Int)
  | sqliteBindUsernameError (rc : Int)
  | sqliteBindScoreError (rc : Int)
  | sqliteInsertStepError (rc : Int)
  | sqlitePurgePrepareError (rc : Int)
  | sqlitePurgeStepError (rc : Int)
  | sqliteSelectPrepareError (rc : Int)
deriving DecidableEq, Repr

/-- Calls of the methods of `PlatformEventHandler`.  Positions are the
integers read from the event, before the cast to `float`. -/
inductive Callback where
  | onExit
  | onPause
  | onResume
  | onLeftPress (x y : Int)
  | onLeftRelease (x y : Int)
  | onPromptOk (input : String)
  | onSubmitScore
  | onLeaderboardReady (leaderboard : List Score)
  | onUserReady (name : String) (flag : Bool) (error : String)
deriving DecidableEq, Repr

/-- What an operation does to the outside, in program order. -/
inductive Effect where
  | log (line : LogLine)
  | callback (c : Callback)
deriving DecidableEq, Repr

/-- The handler calls among the effects. -/
def callbacksOf : List Effect → List Callback
  | [] => []
  | Effect.callback c :: es => c :: callbacksOf es
  | Effect.log _ :: es => callbacksOf es

/-- The log lines among the effects. -/
def logsOf : List Effect → List LogLine
  | [] => []
  | Effect.log l :: es => l :: logsOf es
  | Effect.callback _ :: es => logsOf es

/-- Member variables of `blocks::Platform`; `db` is the table behind `m_db`.  The handler
is taken to be set (`ASSERT(m_handler)`). -/
structure Platform where
  m_scoreOperationInProgress : Bool
  m_leaderboardOperationInProgress : Bool
  m_userOperationInProgress : Bool
  m_promptInProgress : Bool
  m_buttonPressed : Bool
  m_isPaused : Bool
  m_leaderboard : List Score
  db : Table
deriving DecidableEq, Repr

/-- State after the constructor `Platform::Platform()` and `init()`, which opens the
scores database holding `db`. -/
def Platform.new (db : Table) : Platform :=
  { m_scoreOperationInProgress := false
    m_leaderboardOperationInProgress := false
    m_userOperationInProgress := false
    m_promptInProgress := false
    m_buttonPressed := false
    m_isPaused := false
    m_leaderboard := []
    db := db }

/-! ## Leaderboard persistence -/

/-- Model of `Platform::submitLocalScore(const char* login, double score)`.  A statement
changes the table exactly when its `sqlite3_step` returns `SQLITE_DONE`; the insert and the
purge are two statements, each on its own. -/
def submitLocalScore (E : Engine) (o : InsertRcs) (login : String) (score : Int)
    (db : Table) : Table × List LogLine :=
  if o.prepare ≠ SQLITE_OK then (db, [LogLine.sqlitePrepareError o.prepare])
  else if o.bindText ≠ SQLITE_OK then (db, [LogLine.sqliteBindUsernameError o.bindText])
  else if o.bindDouble ≠ SQLITE_OK then (db, [LogLine.sqliteBindScoreError o.bindDouble])
  else if o.step ≠ SQLITE_DONE then (db, [LogLine.sqliteInsertStepError o.step])
  else
    let db1 := sqlInsert db login score
    -- Now purge rows that will never be displayed
    if o.purgePrepare ≠ SQLITE_OK then (db1, [LogLine.sqlitePurgePrepareError o.purgePrepare])
    else if o.purgeStep ≠ SQLITE_DONE then (db1, [LogLine.sqlitePurgeStepError o.purgeStep])
    else (sqlPurge E db1, [])

/-- The `while (rc == SQLITE_ROW)` loop of `fetchLocalScores`: one `Score` is pushed
per row, with the running `rank`. -/
def fetchLoop : List Row → Int → List Score → List Score
  | [], _, scores => scores
  | r :: rows, rank, scores =>
      fetchLoop rows (rank + 1) (scores ++ [⟨rank, r.name, sqlite3_column_int r.score⟩])

/-- Model of `Platform::fetchLocalScores(std::vector<Score>& scores)`: returns the vector
after the call. -/
def fetchLocalScores (E : Engine) (o : SelectRcs) (db : Table) (scores : List Score) :
    List Score × List LogLine :=
  if o.prepare ≠ SQLITE_OK then (scores, [LogLine.sqliteSelectPrepareError o.prepare])
  else (fetchLoop (sqlSelectRows E o db) 1 scores, [])

/-! ## Score, leaderboard and user operations -/

/-- Model of `Platform::submitScoreComplete(int score)`. -/
def submitScoreComplete (E : Engine) (o : InsertRcs) (score : Int) (p : Platform) :
    Platform × List Effect :=
  let r := submitLocalScore E o "User1" score p.db
  ({ p with db := r.1, m_scoreOperationInProgress := false },
    r.2.map Effect.log ++ [Effect.callback Callback.onSubmitScore])

/-- Model of `Platform::submitScore(int score)`. -/
def submitScore (E : Engine) (o : InsertRcs) (score : Int) (p : Platform) :
    Platform × List Effect :=
  if p.m_scoreOperationInProgress then (p, [])
  else submitScoreComplete E o score { p with m_scoreOperationInProgress := true }

/-- Model of `Platform::fetchLeaderboardComplete()`. -/
def fetchLeaderboardComplete (E : Engine) (o : SelectRcs) (p : Platform) :
    Platform × List Effect :=
  let p1 := { p with m_leaderboard := [] }
  let r := fetchLocalScores E o p1.db p1.m_leaderboard
  let p2 := { p1 with m_leaderboard := r.1, m_leaderboardOperationInProgress := false }
  (p2, r.2.map Effect.log ++ [Effect.callback (Callback.onLeaderboardReady p2.m_leaderboard)])

/-- Model of `Platform::fetchLeaderboard()`. -/
def fetchLeaderboard (E : Engine) (o : SelectRcs) (p : Platform) : Platform × List Effect :=
  if p.m_leaderboardOperationInProgress then (p, [])
  else fetchLeaderboardComplete E o { p with m_leaderboardOperationInProgress := true }

/-- Model of `Platform::fetchUserComplete()`. -/
def fetchUserComplete (p : Platform) : Platform × List Effect :=
  ({ p with m_userOperationInProgress := false },
    [Effect.callback (Callback.onUserReady "User1" false "")])

/-- Model of `Platform::fetchUser()`. -/
def fetchUser (p : Platform) : Platform × List Effect :=
  if p.m_userOperationInProgress then (p, [])
  else fetchUserComplete { p with m_userOperationInProgress := true }

/-- Model of `Platform::submitUserName(const std::string& userName)`. -/
def submitUserName (_userName : String) (p : Platform) : Platform × List Effect :=
  if p.m_userOperationInProgress then (p, [Effect.log LogLine.alreadyFetchingUser])
  else fetchUserComplete { p with m_userOperationInProgress := true }

/-! ## Event dispatch -/

/-- Constants of the BPS and screen headers used by `processEvents`, and the domain
numbers the three services report at run time.  The labels of the `switch` are distinct
(the compiler requires it), and so are the domains of distinct services. -/
structure Bps where
  BPS_SUCCESS : Int
  navigatorDomain : Int
  screenDomain : Int
  dialogDomain : Int
  NAVIGATOR_EXIT : Int
  NAVIGATOR_WINDOW_INACTIVE : Int
  NAVIGATOR_WINDOW_ACTIVE : Int
  SCREEN_EVENT_MTOUCH_TOUCH : Int
  SCREEN_EVENT_MTOUCH_RELEASE : Int
  SCREEN_EVENT_POINTER : Int
  SCREEN_LEFT_MOUSE_BUTTON : Int
  DIALOG_RESPONSE : Int
  labelsDistinct : NAVIGATOR_EXIT ≠ NAVIGATOR_WINDOW_INACTIVE ∧
    NAVIGATOR_EXIT ≠ NAVIGATOR_WINDOW_ACTIVE ∧
    NAVIGATOR_WINDOW_INACTIVE ≠ NAVIGATOR_WINDOW_ACTIVE
  domainsDistinct : navigatorDomain ≠ screenDomain ∧ navigatorDomain ≠ dialogDomain ∧
    screenDomain ≠ dialogDomain

/-- A sample set of constants. -/
def sampleBps : Bps where
  BPS_SUCCESS := 0
  navigatorDomain := 11
  screenDomain := 12
  dialogDomain := 13
  NAVIGATOR_EXIT := 2
  NAVIGATOR_WINDOW_INACTIVE := 11
  NAVIGATOR_WINDOW_ACTIVE := 10
  SCREEN_EVENT_MTOUCH_TOUCH := 100
  SCREEN_EVENT_MTOUCH_RELEASE := 102
  SCREEN_EVENT_POINTER := 6
  SCREEN_LEFT_MOUSE_BUTTON := 1
  DIALOG_RESPONSE := 1
  labelsDistinct := by decide
  domainsDistinct := by decide

/-- What `processEvents` reads from a `bps_event_t`: domain and code, the properties
`SCREEN_PROPERTY_TYPE`, `SCREEN_PROPERTY_SOURCE_POSITION` and `SCREEN_PROPERTY_BUTTONS` of
a screen event, and the input field of a dialog event. -/
structure Event where
  domain : Int
  code : Int
  screenType : Int
  x : Int
  y : Int
  buttons : Int
  promptInput : String
deriving DecidableEq, Repr

/-- Body of the `while (true)` loop of `Platform::processEvents` for one event taken
from the queue (assertions compiled out). -/
def dispatchEvent (B : Bps) (e : Event) (p : Platform) : Platform × List Effect :=
  if B.navigatorDomain = e.domain then
    if e.code = B.NAVIGATOR_EXIT then
      (p, [Effect.callback Callback.onExit])
    else if e.code = B.NAVIGATOR_WINDOW_INACTIVE then
      ({ p with m_isPaused := true }, [Effect.callback Callback.onPause])
    else if e.code = B.NAVIGATOR_WINDOW_ACTIVE then
      if p.m_isPaused then
        ({ p with m_isPaused := false }, [Effect.callback Callback.onResume])
      else (p, [])
    else (p, [])
  else if B.screenDomain = e.domain then
    if e.screenType = B.SCREEN_EVENT_MTOUCH_TOUCH then
      (p, [Effect.callback (Callback.onLeftPress e.x e.y)])
    else if e.screenType = B.SCREEN_EVENT_MTOUCH_RELEASE then
      (p, [Effect.callback (Callback.onLeftRelease e.x e.y)])
    else if e.screenType = B.SCREEN_EVENT_POINTER then
      if e.buttons = B.SCREEN_LEFT_MOUSE_BUTTON then
        ({ p with m_buttonPressed := true }, [Effect.callback (Callback.onLeftPress e.x e.y)])
      else if p.m_buttonPressed then
        ({ p with m_buttonPressed := false }, [Effect.callback (Callback.onLeftRelease e.x e.y)])
      else (p, [])
    else (p, [])
  else if B.dialogDomain = e.domain then
    if B.DIALOG_RESPONSE = e.code then
      ({ p with m_promptInProgress := false }, [Effect.callback (Callback.onPromptOk e.promptInput)])
    else (p, [])
  else (p, [Effect.log (LogLine.unrecognizedEvent e.domain e.code)])

/-- Result of one `processEvents`: the state, the effects, and the events still queued. -/
structure Processed where
  platform : Platform
  effects : List Effect
  queue : List Event
deriving DecidableEq, Repr

/-- The loop of `Platform::processEvents` on the queue of pending events.  The poll
number `k` of this invocation returns `rc k` from `bps_get_event`; a failed poll takes no
event, and a successful poll of an empty queue yields `NULL`. -/
def processLoop (B : Bps) (rc : Nat → Int) : List Event → Nat → Platform → Processed
  | [], k, p =>
      if rc k ≠ B.BPS_SUCCESS then ⟨p, [Effect.log LogLine.bpsGetEventError], []⟩
      else ⟨p, [], []⟩
  | e :: queue, k, p =>
      if rc k ≠ B.BPS_SUCCESS then ⟨p, [Effect.log LogLine.bpsGetEventError], e :: queue⟩
      else
        let r := dispatchEvent B e p
        let s := processLoop B rc queue (k + 1) r.1
        ⟨s.platform, r.2 ++ s.effects, s.queue⟩

/-- Model of `Platform::processEvents()`. -/
def processEvents (B : Bps) (rc : Nat → Int) (queue : List Event) (p : Platform) : Processed :=
  processLoop B rc queue 0 p

/-- Dispatching the events one after the other, each from the state left by the one
before: the final state and the effects in queue order. -/
def dispatchAll (B : Bps) : List Event → Platform → Platform × List Effect
  | [], p => (p, [])
  | e :: es, p =>
      let r := dispatchEvent B e p
      let s := dispatchAll B es r.1
      (s.1, r.2 ++ s.2)

/-- A pointer event of the screen domain with the given button mask. -/
def pointerEvent (B : Bps) (buttons x y : Int) : Event :=
  ⟨B.screenDomain, 0, B.SCREEN_EVENT_POINTER, x, y, buttons, ""⟩

/-! ## Calls made by the game, also from inside its handler -/

/-- One call of a public score, leaderboard or user operation, with the outcome of the
SQLite calls it makes. -/
inductive Op where
  | submitScore (score : Int) (o : InsertRcs)
  | fetchLeaderboard (o : SelectRcs)
  | fetchUser
  | submitUserName (userName : String)
deriving DecidableEq, Repr

/-- What the game does: `call op inner next` calls `op`; when the operation calls the
handler back, the handler makes the calls of `inner` before it returns; then the calls
of `next` follow. -/
inductive Script where
  | done
  | call (op : Op) (inner : Script) (next : Script)
deriving Repr

/-- Number of calls in a script, those made from inside handlers included. -/
def Script.size : Script → Nat
  | Script.done => 0
  | Script.call _ inner next => 1 + inner.size + next.size

/-- The operation up to its return, the handler taken to return at once. -/
def Op.exec (E : Engine) : Op → Platform → Platform × List Effect
  | Op.submitScore score o, p => blocks.submitScore E o score p
  | Op.fetchLeaderboard o, p => blocks.fetchLeaderboard E o p
  | Op.fetchUser, p => blocks.fetchUser p
  | Op.submitUserName userName, p => blocks.submitUserName userName p

/-- The three in-progress flags. -/
structure Flags where
  score : Bool
  leaderboard : Bool
  user : Bool
deriving DecidableEq, Repr

/-- The in-progress flags of a state. -/
def Platform.flags (p : Platform) : Flags :=
  ⟨p.m_scoreOperationInProgress, p.m_leaderboardOperationInProgress, p.m_userOperationInProgress⟩

/-- Points at which the flags are observed: the entry of a public operation, and the
moment an operation calls the handler. -/
inductive Obs where
  | entry (op : Op) (flags : Flags)
  | handler (c : Callback) (flags : Flags)
deriving DecidableEq, Repr

/-- The flags seen at an observation. -/
def Obs.flags : Obs → Flags
  | Obs.entry _ f => f
  | Obs.handler _ f => f

/-- Whether the observation is the entry of an operation. -/
def Obs.isEntry : Obs → Bool
  | Obs.entry _ _ => true
  | Obs.handler _ _ => false

/-- All three flags clear. -/
def Flags.clear : Flags := ⟨false, false, false⟩

/-- Runs a script.  In every operation the call of the handler is the last statement
(`submitScoreComplete`, `fetchLeaderboardComplete`, `fetchUserComplete`), so the state in
which the handler runs is the state the operation leaves; an operation rejected by its
guard calls no handler, and the calls the handler would have made do not happen. -/
def Script.run (E : Engine) : Script → Platform → Platform × List Obs
  | Script.done, p => (p, [])
  | Script.call op inner next, p =>
      let r := op.exec E p
      let cbs := callbacksOf r.2
      let i := if cbs = [] then (r.1, []) else inner.run E r.1
      let n := next.run E i.1
      (n.1, Obs.entry op p.flags :: (cbs.map (fun c => Obs.handler c r.1.flags) ++ i.2 ++ n.2))

/-! ## Specification-side definitions -/

/-- Whether a number is a value of the C type `int`. -/
def isInt (v : Int) : Prop := INT_MIN ≤ v ∧ v ≤ INT_MAX

instance (v : Int) : Decidable (isInt v) := by
  unfold isInt; infer_instance

/-- The five largest of the given scores (all of them when there are fewer), largest
first. -/
def topScores (xs : List Int) : List Int := (xs.insertionSort (fun a b => b ≤ a)).take 5

/-- The ranks `1, 2, ..., k`. -/
def ranksUpTo (k : Nat) : List Int := (List.range k).map (fun (i : Nat) => (i : Int) + 1)

/-- Submitting the scores one at a time with `submitScore`, every statement succeeding and
the handler making no call of its own. -/
def submitAll (E : Engine) (xs : List Int) (p : Platform) : Platform :=
  xs.foldl (fun q x => (submitScore E InsertRcs.ok x q).1) p

/-- Keeping every score: the table after inserting all of them as "User1", nothing purged. -/
def keepAll (xs : List Int) (t : Table) : Table :=
  xs.foldl (fun q x => sqlInsert q "User1" x) t

/-- The statements of the insert part of `submitLocalScore` all succeed. -/
def InsertRcs.inserted (o : InsertRcs) : Prop :=
  o.prepare = SQLITE_OK ∧ o.bindText = SQLITE_OK ∧ o.bindDouble = SQLITE_OK ∧ o.step = SQLITE_DONE

/-- The statements of the purge part of `submitLocalScore` both succeed. -/
def InsertRcs.purged (o : InsertRcs) : Prop :=
  o.purgePrepare = SQLITE_OK ∧ o.purgeStep = SQLITE_DONE

/-- Some statement of `submitLocalScore` fails. -/
def InsertRcs.failed (o : InsertRcs) : Prop := ¬ (o.inserted ∧ o.purged)

instance (o : InsertRcs) : Decidable o.inserted := by
  unfold InsertRcs.inserted; infer_instance

instance (o : InsertRcs) : Decidable o.purged := by
  unfold InsertRcs.purged; infer_instance

instance (o : InsertRcs) : Decidable o.failed := by
  unfold InsertRcs.failed; infer_instance

/-- The pair of domain and code is none the dispatcher acts on, in the three ways a
pair can be so: an unknown domain, an unknown navigator code, an unknown dialog code. -/
def Bps.unrecognised (B : Bps) (e : Event) : Prop :=
  (e.domain ≠ B.navigatorDomain ∧ e.domain ≠ B.screenDomain ∧ e.domain ≠ B.dialogDomain) ∨
  (e.domain = B.navigatorDomain ∧ e.code ≠ B.NAVIGATOR_EXIT ∧
    e.code ≠ B.NAVIGATOR_WINDOW_INACTIVE ∧ e.code ≠ B.NAVIGATOR_WINDOW_ACTIVE) ∨
  (e.domain = B.dialogDomain ∧ e.code ≠ B.DIALOG_RESPONSE)

instance (B : Bps) (e : Event) : Decidable (B.unrecognised e) := by
  unfold Bps.unrecognised; infer_instance

/-- Reading a trace of handler calls with the pause state in hand: an `onPause` sets it, an
`onResume` needs it set and clears it, any other call leaves it. -/
def pairedFrom : Bool → List Callback → Prop
  | _, [] => True
  | _, Callback.onPause :: cs => pairedFrom true cs
  | paused, Callback.onResume :: cs => paused = true ∧ pairedFrom false cs
  | paused, Callback.onExit :: cs => pairedFrom paused cs
  | paused, Callback.onLeftPress _ _ :: cs => pairedFrom paused cs
  | paused, Callback.onLeftRelease _ _ :: cs => pairedFrom paused cs
  | paused, Callback.onPromptOk _ :: cs => pairedFrom paused cs
  | paused, Callback.onSubmitScore :: cs => pairedFrom paused cs
  | paused, Callback.onLeaderboardReady _ :: cs => pairedFrom paused cs
  | paused, Callback.onUserReady _ _ _ :: cs => pairedFrom paused cs

/-- Number of `onPause` calls in a trace. -/
def pauses (cs : List Callback) : Nat := cs.count Callback.onPause

/-- Number of `onResume` calls in a trace. -/
def resumes (cs : List Callback) : Nat := cs.count Callback.onResume

/-! ## Sample data -/

/-- A table of five rows. -/
def fullTable : Table :=
  [⟨1, "User1", 10⟩, ⟨2, "User1", 20⟩, ⟨3, "User1", 30⟩, ⟨4, "User1", 40⟩, ⟨5, "User1", 50⟩]

/-- A table of one row. -/
def oneRowTable : Table := [⟨1, "User1", 10⟩]

/-- A table of two rows, one of them with a score beyond the range of `int`. -/
def wideTable : Table := [⟨1, "User1", 5⟩, ⟨2, "User1", 4294967296⟩]

/-- The insert succeeds and the prepare of the purge fails. -/
def purgePrepareFails : InsertRcs := ⟨SQLITE_OK, SQLITE_OK, SQLITE_OK, SQLITE_DONE, 1, SQLITE_DONE⟩

/-- The prepare of the insert fails. -/
def insertPrepareFails : InsertRcs := ⟨1, SQLITE_OK, SQLITE_OK, SQLITE_DONE, SQLITE_OK, SQLITE_DONE⟩

/-- The prepare of the select fails. -/
def selectPrepareFails : SelectRcs := ⟨1, none⟩

/-- Events for a pause, a resume, and a second window-active event. -/
def pauseResumeQueue : List Event :=
  [⟨11, 11, 0, 0, 0, 0, ""⟩, ⟨11, 10, 0, 0, 0, 0, ""⟩, ⟨11, 10, 0, 0, 0, 0, ""⟩]

/-- A game that submits a score, fetches the leaderboard from inside `onSubmitScore`, submits
again from inside `onLeaderboardReady`, and then fetches the user. -/
def nestedScript : Script :=
  Script.call (Op.submitScore 7 InsertRcs.ok)
    (Script.call (Op.fetchLeaderboard SelectRcs.ok)
      (Script.call (Op.submitScore 9 purgePrepareFails) Script.done Script.done)
      (Script.call (Op.submitUserName "me") Script.done Script.done))
    (Script.call Op.fetchUser Script.done Script.done)

/-- A platform over the five-row table whose `m_leaderboard` still holds an entry of an
earlier fetch. -/
def staleBoard : Platform := { Platform.new fullTable with m_leaderboard := [⟨1, "User1", 99⟩] }

/-- Every poll of `bps_get_event` succeeds. -/
def pollsSucceed (B : Bps) : Nat → Int := fun _ => B.BPS_SUCCESS

/-- A navigator event with the given code. -/
def navigatorEvent (B : Bps) (code : Int) : Event := ⟨B.navigatorDomain, code, 0, 0, 0, 0, ""⟩

/-! ## The table: row identifiers and the purge -/

theorem le_foldr_max (l : List Nat) (x : Nat) (h : x ∈ l) : x ≤ l.foldr max 0 := by
  induction l with
  | nil => cases h
  | cons a l ih =>
    simp only [List.foldr_cons]
    rcases List.mem_cons.mp h with rfl | h
    · exact le_max_left _ _
    · exact le_trans (ih h) (le_max_right _ _)

theorem nextRowid_not_mem (t : Table) : nextRowid t ∉ t.map Row.rowid := by
  intro h
  have := le_foldr_max _ _ h
  unfold nextRowid at this
  omega

theorem sqlInsert_WF (t : Table) (name : String) (score : Int) (h : t.WF) :
    (sqlInsert t name score).WF := by
  unfold Table.WF sqlInsert at *
  rw [List.map_append, List.nodup_append]
  refine ⟨h, by simp, ?_⟩
  intro a ha hb
  simp at hb
  subst hb
  exact nextRowid_not_mem t ha

theorem sqlPurge_perm (E : Engine) (t : Table) (h : t.WF) :
    (sqlPurge E t).Perm (sqlTop5 E t) := by
  unfold sqlPurge
  have hperm := E.perm t
  have hnd : ((E.orderByScoreDesc t).map Row.rowid).Nodup :=
    (List.Perm.nodup_iff (hperm.map Row.rowid)).mpr h
  refine (List.Perm.filter _ hperm.symm).trans ?_
  have hsplit : E.orderByScoreDesc t = sqlTop5 E t ++ (E.orderByScoreDesc t).drop 5 :=
    (List.take_append_drop 5 _).symm
  rw [hsplit, List.map_append, List.nodup_append] at hnd
  obtain ⟨_, _, hdisj⟩ := hnd
  conv_lhs => rw [hsplit]
  rw [List.filter_append]
  have h1 : (sqlTop5 E t).filter (fun r => decide (r.rowid ∈ (sqlTop5 E t).map Row.rowid))
      = sqlTop5 E t := by
    rw [List.filter_eq_self]
    intro a ha
    simpa using ⟨a, ha, rfl⟩
  have h2 : ((E.orderByScoreDesc t).drop 5).filter
      (fun r => decide (r.rowid ∈ (sqlTop5 E t).map Row.rowid)) = [] := by
    rw [List.filter_eq_nil_iff]
    intro a ha hin
    have hin2 : a.rowid ∈ (sqlTop5 E t).map Row.rowid := by simpa using hin
    exact hdisj hin2 (List.mem_map_of_mem _ ha)
  rw [h1, h2, List.append_nil]

theorem sqlTop5_length (E : Engine) (t : Table) : (sqlTop5 E t).length = min 5 t.length := by
  unfold sqlTop5
  rw [List.length_take, (E.perm t).length_eq]

theorem sqlPurge_length (E : Engine) (t : Table) (h : t.WF) :
    (sqlPurge E t).length = min 5 t.length := by
  rw [(sqlPurge_perm E t h).length_eq, sqlTop5_length]

theorem sqlPurge_WF (E : Engine) (t : Table) (h : t.WF) : (sqlPurge E t).WF := by
  unfold Table.WF sqlPurge at *
  exact List.Nodup.sublist ((List.filter_sublist _).map _) h

theorem sqlInsert_length (t : Table) (name : String) (score : Int) :
    (sqlInsert t name score).length = t.length + 1 := by
  simp [sqlInsert]

/-- C2 (amended): for a well-formed table of at most 5 rows, after `submitLocalScore` the
table holds at most 5 rows except in one case, a full table on which the insert succeeds
and the purge prepare or purge step fails; it never holds more than 6. -/
theorem submitLocalScore_row_bound (E : Engine) (o : InsertRcs) (login : String) (score : Int)
    (t : Table) (hwf : t.WF) (hlen : t.length ≤ 5) :
    ((submitLocalScore E o login score t).1.length ≤ 5 ↔
        ¬ (t.length = 5 ∧ o.inserted ∧ ¬ o.purged)) ∧
      (submitLocalScore E o login score t).1.length ≤ 6 := by
  have hins := sqlInsert_length t login score
  have hpur := sqlPurge_length E _ (sqlInsert_WF t login score hwf)
  unfold submitLocalScore InsertRcs.inserted InsertRcs.purged
  by_cases h1 : o.prepare = SQLITE_OK
  · by_cases h2 : o.bindText = SQLITE_OK
    · by_cases h3 : o.bindDouble = SQLITE_OK
      · by_cases h4 : o.step = SQLITE_DONE
        · by_cases h5 : o.purgePrepare = SQLITE_OK
          · by_cases h6 : o.purgeStep = SQLITE_DONE
            · simp [h1, h2, h3, h4, h5, h6, hpur]
            · simp [h1, h2, h3, h4, h5, h6, hins]; omega
          · simp [h1, h2, h3, h4, h5, hins]; omega
        · simp [h1, h2, h3, h4]; omega
      · simp [h1, h2, h3]; omega
    · simp [h1, h2]; omega
  · simp [h1]; omega

/-- C2 (counterexample): on a table of 5 rows, when the insert succeeds and the purge
prepare fails, `submitLocalScore` leaves 6 rows. -/
theorem submitLocalScore_six_rows :
    Table.WF fullTable ∧ fullTable.length ≤ 5 ∧
      ¬ ((submitLocalScore stableEngine purgePrepareFails "User1" 60 fullTable).1.length ≤ 5) := by
  decide

/-- Witness of `submitLocalScore_row_bound`: a full table, every statement succeeding. -/
theorem submitLocalScore_row_bound_witness :
    (Table.WF fullTable ∧ fullTable.length ≤ 5) ∧
    (((submitLocalScore stableEngine InsertRcs.ok "User1" 7 fullTable).1.length ≤ 5 ↔
        ¬ (fullTable.length = 5 ∧ InsertRcs.ok.inserted ∧ ¬ InsertRcs.ok.purged)) ∧
      (submitLocalScore stableEngine InsertRcs.ok "User1" 7 fullTable).1.length ≤ 6) :=
  ⟨by decide, submitLocalScore_row_bound stableEngine InsertRcs.ok "User1" 7 fullTable
    (by decide) (by decide)⟩

/-! ## The fetch loop -/

theorem fetchLoop_append (rows : List Row) (rank : Int) (scores : List Score) :
    fetchLoop rows rank scores = scores ++ fetchLoop rows rank [] := by
  induction rows generalizing rank scores with
  | nil => simp [fetchLoop]
  | cons r rows ih =>
    simp only [fetchLoop, List.nil_append]
    rw [ih (rank + 1) (scores ++ _), ih (rank + 1) [_], List.append_assoc]

theorem fetchLoop_cons (r : Row) (rows : List Row) (rank : Int) :
    fetchLoop (r :: rows) rank [] =
      ⟨rank, r.name, sqlite3_column_int r.score⟩ :: fetchLoop rows (rank + 1) [] := by
  simp only [fetchLoop, List.nil_append]
  rw [fetchLoop_append]
  rfl

theorem fetchLoop_length (rows : List Row) (rank : Int) :
    (fetchLoop rows rank []).length = rows.length := by
  induction rows generalizing rank with
  | nil => rfl
  | cons r rows ih => rw [fetchLoop_cons, List.length_cons, ih, List.length_cons]

theorem fetchLoop_values (rows : List Row) (rank : Int) :
    (fetchLoop rows rank []).map Score.value = rows.map (fun r => sqlite3_column_int r.score) := by
  induction rows generalizing rank with
  | nil => rfl
  | cons r rows ih => rw [fetchLoop_cons, List.map_cons, ih, List.map_cons]

theorem fetchLoop_names (rows : List Row) (rank : Int) :
    (fetchLoop rows rank []).map Score.name = rows.map Row.name := by
  induction rows generalizing rank with
  | nil => rfl
  | cons r rows ih => rw [fetchLoop_cons, List.map_cons, ih, List.map_cons]

theorem fetchLoop_ranks (rows : List Row) (rank : Int) :
    (fetchLoop rows rank []).map Score.rank =
      (List.range rows.length).map (fun (i : Nat) => rank + (i : Int)) := by
  induction rows generalizing rank with
  | nil => rfl
  | cons r rows ih =>
    rw [fetchLoop_cons, List.map_cons, ih, List.length_cons, List.range_succ_eq_map,
      List.map_cons, List.map_map]
    simp only [Nat.cast_zero, add_zero, List.cons.injEq, true_and]
    apply List.map_congr_left
    intro i _
    simp only [Function.comp, Nat.cast_succ]
    ring

theorem ranksUpTo_eq (k : Nat) : ranksUpTo k = (List.range k).map (fun (i : Nat) => 1 + (i : Int)) := by
  unfold ranksUpTo
  apply List.map_congr_left
  intro i _
  ring

theorem sqlSelectRows_length_le (E : Engine) (o : SelectRcs) (t : Table) :
    (sqlSelectRows E o t).length ≤ 5 := by
  have h : (sqlTop5 E t).length ≤ 5 := by rw [sqlTop5_length]; exact min_le_left _ _
  unfold sqlSelectRows
  cases o.rowsBeforeError with
  | none => exact h
  | some k => exact le_trans (by rw [List.length_take]; exact min_le_right _ _) h

/-- C4: the entries `fetchLocalScores` appends to the vector are at most 5 and carry the
ranks 1, 2, ..., k in order, whatever the table (ties included), the vector before the
call and the outcome of the SQLite calls; so the leaderboard `fetchLeaderboardComplete`
stores and hands to `onLeaderboardReady` has exactly the ranks 1, ..., k with k at most 5. -/
theorem fetchLocalScores_ranks (E : Engine) (o : SelectRcs) (db : Table) (scores : List Score)
    (p : Platform) :
    ((fetchLocalScores E o db scores).1 =
        scores ++ ((fetchLocalScores E o db scores).1).drop scores.length ∧
      (((fetchLocalScores E o db scores).1).drop scores.length).length ≤ 5 ∧
      (((fetchLocalScores E o db scores).1).drop scores.length).map Score.rank =
        ranksUpTo (((fetchLocalScores E o db scores).1).drop scores.length).length) ∧
    ((fetchLeaderboardComplete E o p).1.m_leaderboard.length ≤ 5 ∧
      (fetchLeaderboardComplete E o p).1.m_leaderboard.map Score.rank =
        ranksUpTo (fetchLeaderboardComplete E o p).1.m_leaderboard.length ∧
      callbacksOf (fetchLeaderboardComplete E o p).2 =
        [Callback.onLeaderboardReady (fetchLeaderboardComplete E o p).1.m_leaderboard]) := by
  have key : ∀ (t : Table) (s : List Score),
      (fetchLocalScores E o t s).1 = s ++ ((fetchLocalScores E o t s).1).drop s.length ∧
      (((fetchLocalScores E o t s).1).drop s.length).length ≤ 5 ∧
      (((fetchLocalScores E o t s).1).drop s.length).map Score.rank =
        ranksUpTo (((fetchLocalScores E o t s).1).drop s.length).length := by
    intro t s
    unfold fetchLocalScores
    by_cases h : o.prepare = SQLITE_OK
    · simp only [h, ne_eq, not_true_eq_false, if_false]
      rw [fetchLoop_append, List.drop_left, fetchLoop_length, fetchLoop_ranks, ranksUpTo_eq]
      exact ⟨rfl, sqlSelectRows_length_le E o t, rfl⟩
    · simp [h, ranksUpTo]
  refine ⟨key db scores, ?_⟩
  have k2 := key p.db []
  simp only [List.length_nil, List.drop_zero, List.nil_append] at k2
  refine ⟨k2.2.1, k2.2.2, ?_⟩
  unfold fetchLeaderboardComplete fetchLocalScores
  by_cases h : o.prepare = SQLITE_OK <;> simp [h, callbacksOf]

/-! ## Effects -/

theorem callbacksOf_append (a b : List Effect) :
    callbacksOf (a ++ b) = callbacksOf a ++ callbacksOf b := by
  induction a with
  | nil => rfl
  | cons e a ih => cases e <;> simp [callbacksOf, ih]

theorem logsOf_append (a b : List Effect) : logsOf (a ++ b) = logsOf a ++ logsOf b := by
  induction a with
  | nil => rfl
  | cons e a ih => cases e <;> simp [logsOf, ih]

theorem callbacksOf_logs (l : List LogLine) : callbacksOf (l.map Effect.log) = [] := by
  induction l with
  | nil => rfl
  | cons e a ih => simp [callbacksOf, ih]

theorem logsOf_logs (l : List LogLine) : logsOf (l.map Effect.log) = l := by
  induction l with
  | nil => rfl
  | cons e a ih => simp [logsOf, ih]

theorem submitLocalScore_logs (E : Engine) (o : InsertRcs) (login : String) (score : Int)
    (t : Table) : (submitLocalScore E o login score t).2 ≠ [] ↔ o.failed := by
  unfold submitLocalScore InsertRcs.failed InsertRcs.inserted InsertRcs.purged
  by_cases h1 : o.prepare = SQLITE_OK
  · by_cases h2 : o.bindText = SQLITE_OK
    · by_cases h3 : o.bindDouble = SQLITE_OK
      · by_cases h4 : o.step = SQLITE_DONE
        · by_cases h5 : o.purgePrepare = SQLITE_OK
          · by_cases h6 : o.purgeStep = SQLITE_DONE
            · simp [h1, h2, h3, h4, h5, h6]
            · simp [h1, h2, h3, h4, h5, h6]
          · simp [h1, h2, h3, h4, h5]
        · simp [h1, h2, h3, h4]
      · simp [h1, h2, h3]
    · simp [h1, h2]
  · simp [h1]

/-- C6 (amended): a database failure shows in the log only, never in the callbacks.  With
the guard flag clear, `submitScore` calls `onSubmitScore` exactly once whether or not a
prepare, bind or step of `submitLocalScore` fails, and it writes a log line exactly when
one fails; `fetchLeaderboard` calls `onLeaderboardReady` exactly once with the leaderboard
it stored, and when the prepare of `fetchLocalScores` fails that leaderboard is empty and
one log line is written. -/
theorem callbacks_despite_failure (E : Engine) (oi : InsertRcs) (os : SelectRcs) (score : Int)
    (p : Platform) (hs : p.m_scoreOperationInProgress = false)
    (hl : p.m_leaderboardOperationInProgress = false) :
    (callbacksOf (submitScore E oi score p).2 = [Callback.onSubmitScore] ∧
      (logsOf (submitScore E oi score p).2 ≠ [] ↔ oi.failed)) ∧
    (callbacksOf (fetchLeaderboard E os p).2 =
        [Callback.onLeaderboardReady (fetchLeaderboard E os p).1.m_leaderboard] ∧
      (os.prepare ≠ SQLITE_OK →
        (fetchLeaderboard E os p).1.m_leaderboard = [] ∧
        logsOf (fetchLeaderboard E os p).2 = [LogLine.sqliteSelectPrepareError os.prepare])) := by
  refine ⟨⟨?_, ?_⟩, ?_, ?_⟩
  · simp [submitScore, submitScoreComplete, hs, callbacksOf_append, callbacksOf_logs, callbacksOf]
  · simp only [submitScore, submitScoreComplete, hs, logsOf_append, logsOf_logs, logsOf,
      List.append_nil, Bool.false_eq_true, if_false]
    exact submitLocalScore_logs E oi "User1" score p.db
  · simp [fetchLeaderboard, fetchLeaderboardComplete, hl, callbacksOf_append, callbacksOf_logs,
      callbacksOf]
  · intro hprep
    simp [fetchLeaderboard, fetchLeaderboardComplete, fetchLocalScores, hl, hprep, logsOf]

/-- Witness of `callbacks_despite_failure`: the prepare of the insert and the prepare of the
select fail on a fresh platform. -/
theorem callbacks_despite_failure_witness :
    ((Platform.new fullTable).m_scoreOperationInProgress = false ∧
      (Platform.new fullTable).m_leaderboardOperationInProgress = false) ∧
    ((callbacksOf (submitScore stableEngine insertPrepareFails 7 (Platform.new fullTable)).2 =
          [Callback.onSubmitScore] ∧
        (logsOf (submitScore stableEngine insertPrepareFails 7 (Platform.new fullTable)).2 ≠ [] ↔
          insertPrepareFails.failed)) ∧
      (callbacksOf (fetchLeaderboard stableEngine selectPrepareFails (Platform.new fullTable)).2 =
          [Callback.onLeaderboardReady
            (fetchLeaderboard stableEngine selectPrepareFails (Platform.new fullTable)).1.m_leaderboard] ∧
        (selectPrepareFails.prepare ≠ SQLITE_OK →
          (fetchLeaderboard stableEngine selectPrepareFails (Platform.new fullTable)).1.m_leaderboard
            = [] ∧
          logsOf (fetchLeaderboard stableEngine selectPrepareFails (Platform.new fullTable)).2 =
            [LogLine.sqliteSelectPrepareError selectPrepareFails.prepare]))) :=
  ⟨⟨rfl, rfl⟩, callbacks_despite_failure stableEngine insertPrepareFails selectPrepareFails 7
    (Platform.new fullTable) rfl rfl⟩

/-- C6 (counterexample): the prepare of the insert fails and `submitScore` still calls
`onSubmitScore`; the prepare of the select fails and `fetchLeaderboard` still calls
`onLeaderboardReady`. -/
theorem callback_after_failed_prepare :
    (insertPrepareFails.prepare ≠ SQLITE_OK ∧
      Callback.onSubmitScore ∈
        callbacksOf (submitScore stableEngine insertPrepareFails 7 (Platform.new fullTable)).2) ∧
    (selectPrepareFails.prepare ≠ SQLITE_OK ∧
      Callback.onLeaderboardReady [] ∈
        callbacksOf (fetchLeaderboard stableEngine selectPrepareFails (Platform.new fullTable)).2) := by
  decide

/-! ## Event dispatch -/

theorem processLoop_succeeding (B : Bps) (rc : Nat → Int) (h : ∀ k, rc k = B.BPS_SUCCESS)
    (queue : List Event) (k : Nat) (p : Platform) :
    processLoop B rc queue k p = ⟨(dispatchAll B queue p).1, (dispatchAll B queue p).2, []⟩ := by
  induction queue generalizing k p with
  | nil => simp [processLoop, dispatchAll, h]
  | cons e queue ih => simp [processLoop, dispatchAll, h, ih]

theorem dispatchAll_append (B : Bps) (a b : List Event) (p : Platform) :
    dispatchAll B (a ++ b) p =
      ((dispatchAll B b (dispatchAll B a p).1).1,
        (dispatchAll B a p).2 ++ (dispatchAll B b (dispatchAll B a p).1).2) := by
  induction a generalizing p with
  | nil => simp [dispatchAll]
  | cons e a ih => simp [dispatchAll, ih]

/-- The callbacks of the event at position `i` of the queue, dispatched alone from the state
left by the events before it. -/
theorem callbacks_by_position (B : Bps) (queue : List Event) (p : Platform) :
    callbacksOf (dispatchAll B queue p).2 =
      ((List.range queue.length).map (fun i =>
        match queue[i]? with
        | some e => callbacksOf (dispatchEvent B e (dispatchAll B (queue.take i) p).1).2
        | none => [])).flatten := by
  induction queue using List.reverseRecOn with
  | nil => rfl
  | append_singleton q e ih =>
    rw [dispatchAll_append, callbacksOf_append, ih, List.length_append, List.length_singleton,
      List.range_succ, List.map_append, List.flatten_append]
    congr 1
    · congr 1
      apply List.map_congr_left
      intro i hi
      have hi2 : i < q.length := List.mem_range.mp hi
      rw [List.getElem?_append_left hi2, List.take_append_of_le_length (le_of_lt hi2)]
    · simp [dispatchAll]

/-- C8: with every poll of `bps_get_event` succeeding, one call of `processEvents` on a finite
queue returns (the loop is a total function of the queue), leaves the queue empty, ends in the
state reached by dispatching the events in order, and issues as handler calls the
concatenation, in queue order, of the calls that dispatching each event alone issues from
the state left by the events before it. -/
theorem processEvents_drains (B : Bps) (rc : Nat → Int) (queue : List Event) (p : Platform)
    (h : ∀ k, rc k = B.BPS_SUCCESS) :
    (processEvents B rc queue p).queue = [] ∧
    (processEvents B rc queue p).platform = (dispatchAll B queue p).1 ∧
    callbacksOf (processEvents B rc queue p).effects =
      ((List.range queue.length).map (fun i =>
        match queue[i]? with
        | some e => callbacksOf (dispatchEvent B e (dispatchAll B (queue.take i) p).1).2
        | none => [])).flatten := by
  unfold processEvents
  rw [processLoop_succeeding B rc h]
  exact ⟨rfl, rfl, callbacks_by_position B queue p⟩

/-- Witness of `processEvents_drains`: a pause, a resume and a pointer press in the queue. -/
theorem processEvents_drains_witness :
    (∀ k, pollsSucceed sampleBps k = sampleBps.BPS_SUCCESS) ∧
    ((processEvents sampleBps (pollsSucceed sampleBps)
        [navigatorEvent sampleBps 11, navigatorEvent sampleBps 10, pointerEvent sampleBps 1 3 4]
        (Platform.new [])).queue = [] ∧
    (processEvents sampleBps (pollsSucceed sampleBps)
        [navigatorEvent sampleBps 11, navigatorEvent sampleBps 10, pointerEvent sampleBps 1 3 4]
        (Platform.new [])).platform =
      (dispatchAll sampleBps
        [navigatorEvent sampleBps 11, navigatorEvent sampleBps 10, pointerEvent sampleBps 1 3 4]
        (Platform.new [])).1 ∧
    callbacksOf (processEvents sampleBps (pollsSucceed sampleBps)
        [navigatorEvent sampleBps 11, navigatorEvent sampleBps 10, pointerEvent sampleBps 1 3 4]
        (Platform.new [])).effects =
      ((List.range [navigatorEvent sampleBps 11, navigatorEvent sampleBps 10,
          pointerEvent sampleBps 1 3 4].length).map (fun i =>
        match [navigatorEvent sampleBps 11, navigatorEvent sampleBps 10,
          pointerEvent sampleBps 1 3 4][i]? with
        | some e => callbacksOf (dispatchEvent sampleBps e (dispatchAll sampleBps
            ([navigatorEvent sampleBps 11, navigatorEvent sampleBps 10,
              pointerEvent sampleBps 1 3 4].take i) (Platform.new [])).1).2
        | none => [])).flatten) :=
  ⟨fun _ => rfl, processEvents_drains sampleBps (pollsSucceed sampleBps) _ (Platform.new [])
    (fun _ => rfl)⟩

/-- C7 (amended): an event whose domain and code the dispatcher does not recognise issues no
handler call and changes no state; a log line is written for it exactly when its domain is
none of navigator, screen and dialog, while an unknown navigator code and an unknown dialog
code are dropped without a log line. -/
theorem unrecognised_event_dropped (B : Bps) (e : Event) (p : Platform)
    (h : B.unrecognised e) :
    (dispatchEvent B e p).1 = p ∧
    callbacksOf (dispatchEvent B e p).2 = [] ∧
    logsOf (dispatchEvent B e p).2 =
      (if e.domain = B.navigatorDomain ∨ e.domain = B.dialogDomain then []
        else [LogLine.unrecognizedEvent e.domain e.code]) ∧
    processEvents B (pollsSucceed B) [e] p = ⟨p, (dispatchEvent B e p).2, []⟩ := by
  have hd := B.domainsDistinct
  have key : (dispatchEvent B e p).1 = p ∧
      callbacksOf (dispatchEvent B e p).2 = [] ∧
      logsOf (dispatchEvent B e p).2 =
        (if e.domain = B.navigatorDomain ∨ e.domain = B.dialogDomain then []
          else [LogLine.unrecognizedEvent e.domain e.code]) := by
    rcases h with ⟨h1, h2, h3⟩ | ⟨h1, h2, h3, h4⟩ | ⟨h1, h2⟩
    · simp [dispatchEvent, Ne.symm h1, Ne.symm h2, Ne.symm h3, h1, h3, callbacksOf, logsOf]
    · simp [dispatchEvent, h1, h2, h3, h4, callbacksOf, logsOf]
    · simp [dispatchEvent, h1, hd.1, hd.2.1, hd.2.2, Ne.symm h2, callbacksOf, logsOf]
  refine ⟨key.1, key.2.1, key.2.2, ?_⟩
  simp [processEvents, processLoop, pollsSucceed, key.1]

/-- Witness of `unrecognised_event_dropped`: an event of an unknown domain. -/
theorem unrecognised_event_dropped_witness :
    sampleBps.unrecognised ⟨99, 7, 0, 0, 0, 0, ""⟩ ∧
    ((dispatchEvent sampleBps ⟨99, 7, 0, 0, 0, 0, ""⟩ (Platform.new [])).1 = Platform.new [] ∧
    callbacksOf (dispatchEvent sampleBps ⟨99, 7, 0, 0, 0, 0, ""⟩ (Platform.new [])).2 = [] ∧
    logsOf (dispatchEvent sampleBps ⟨99, 7, 0, 0, 0, 0, ""⟩ (Platform.new [])).2 =
      (if (⟨99, 7, 0, 0, 0, 0, ""⟩ : Event).domain = sampleBps.navigatorDomain ∨
          (⟨99, 7, 0, 0, 0, 0, ""⟩ : Event).domain = sampleBps.dialogDomain then []
        else [LogLine.unrecognizedEvent (⟨99, 7, 0, 0, 0, 0, ""⟩ : Event).domain
          (⟨99, 7, 0, 0, 0, 0, ""⟩ : Event).code]) ∧
    processEvents sampleBps (pollsSucceed sampleBps) [⟨99, 7, 0, 0, 0, 0, ""⟩] (Platform.new []) =
      ⟨Platform.new [], (dispatchEvent sampleBps ⟨99, 7, 0, 0, 0, 0, ""⟩ (Platform.new [])).2, []⟩) :=
  ⟨by decide, unrecognised_event_dropped sampleBps ⟨99, 7, 0, 0, 0, 0, ""⟩ (Platform.new [])
    (by decide)⟩

/-- C7 (counterexample): a navigator event with a code the `switch` has no case for, and a
dialog event with a code other than `DIALOG_RESPONSE`, are unrecognised and `processEvents`
writes no log line for them. -/
theorem unknown_code_not_logged :
    (sampleBps.unrecognised (navigatorEvent sampleBps 99) ∧
      logsOf (processEvents sampleBps (pollsSucceed sampleBps) [navigatorEvent sampleBps 99]
        (Platform.new [])).effects = []) ∧
    (sampleBps.unrecognised ⟨sampleBps.dialogDomain, 99, 0, 0, 0, 0, ""⟩ ∧
      logsOf (processEvents sampleBps (pollsSucceed sampleBps)
        [⟨sampleBps.dialogDomain, 99, 0, 0, 0, 0, ""⟩] (Platform.new [])).effects = []) := by
  decide

/-- C9 (the code at the failing input): two pointer events in a row with the left button set,
starting from `m_buttonPressed = false`.  When the second arrives `m_buttonPressed` is true,
so `ASSERT(!m_buttonPressed)` does not hold, and with assertions compiled out `onLeftPress`
is called twice with no `onLeftRelease` between. -/
theorem pointer_press_twice :
    (Platform.new []).m_buttonPressed = false ∧
    (dispatchEvent sampleBps (pointerEvent sampleBps sampleBps.SCREEN_LEFT_MOUSE_BUTTON 3 4)
      (Platform.new [])).1.m_buttonPressed = true ∧
    callbacksOf (processEvents sampleBps (pollsSucceed sampleBps)
      [pointerEvent sampleBps sampleBps.SCREEN_LEFT_MOUSE_BUTTON 3 4,
        pointerEvent sampleBps sampleBps.SCREEN_LEFT_MOUSE_BUTTON 5 6] (Platform.new [])).effects =
      [Callback.onLeftPress 3 4, Callback.onLeftPress 5 6] := by
  decide

/-! ## Pause and resume -/

theorem pairedFrom_append (b : Bool) (a l : List Callback) (h : pairedFrom b (a ++ l)) :
    ∃ b2, pairedFrom b2 l := by
  induction a generalizing b with
  | nil => exact ⟨b, h⟩
  | cons x a ih =>
    cases x <;> simp only [List.cons_append, pairedFrom] at h
    case onResume => exact ih _ h.2
    all_goals exact ih _ h

theorem pairedFrom_counts (b : Bool) (tr : List Callback) (h : pairedFrom b tr) (n : Nat) :
    resumes (tr.take n) ≤ pauses (tr.take n) + (if b then 1 else 0) := by
  induction tr generalizing b n with
  | nil => simp [resumes, pauses]
  | cons x tr ih =>
    cases n with
    | zero => simp [resumes, pauses]
    | succ n =>
      cases x <;> simp only [pairedFrom] at h
      case onPause =>
        have := ih true h n
        simp [resumes, pauses, List.take_succ_cons, List.count_cons] at this ⊢
        omega
      case onResume =>
        have := ih false h.2 n
        simp [resumes, pauses, List.take_succ_cons, List.count_cons, h.1] at this ⊢
        omega
      all_goals
        have := ih b h n
        simp [resumes, pauses, List.take_succ_cons, List.count_cons] at this ⊢
        omega

theorem pairedFrom_resume_after_pause (b : Bool) (a c : List Callback)
    (h : pairedFrom b (a ++ Callback.onResume :: c)) :
    (∃ a1 a2, a = a1 ++ Callback.onPause :: a2 ∧ Callback.onResume ∉ a2) ∨
      (b = true ∧ Callback.onResume ∉ a) := by
  induction a generalizing b with
  | nil => exact Or.inr ⟨h.1, by simp⟩
  | cons x a ih =>
    cases x <;> simp only [List.cons_append, pairedFrom] at h
    case onPause =>
      rcases ih true h with ⟨a1, a2, h1, h2⟩ | ⟨_, h2⟩
      · exact Or.inl ⟨Callback.onPause :: a1, a2, by rw [h1]; rfl, h2⟩
      · exact Or.inl ⟨[], a, rfl, h2⟩
    case onResume =>
      rcases ih false h.2 with ⟨a1, a2, h1, h2⟩ | ⟨h1, _⟩
      · exact Or.inl ⟨Callback.onResume :: a1, a2, by rw [h1]; rfl, h2⟩
      · cases h1
    all_goals
      rcases ih b h with ⟨a1, a2, h1, h2⟩ | ⟨h1, h2⟩
      · exact Or.inl ⟨_ :: a1, a2, by rw [h1]; rfl, h2⟩
      · exact Or.inr ⟨h1, by simpa using h2⟩

theorem dispatchEvent_paired (B : Bps) (e : Event) (p : Platform) (rest : List Callback)
    (h : pairedFrom (dispatchEvent B e p).1.m_isPaused rest) :
    pairedFrom p.m_isPaused (callbacksOf (dispatchEvent B e p).2 ++ rest) := by
  unfold dispatchEvent at h ⊢
  split_ifs at h ⊢ <;> simp_all [callbacksOf, pairedFrom]

theorem processLoop_paired (B : Bps) (rc : Nat → Int) (queue : List Event) (k : Nat)
    (p : Platform) : pairedFrom p.m_isPaused (callbacksOf (processLoop B rc queue k p).effects) := by
  induction queue generalizing k p with
  | nil =>
    unfold processLoop
    split_ifs <;> simp [callbacksOf, pairedFrom]
  | cons e queue ih =>
    unfold processLoop
    split_ifs
    · simp [callbacksOf, pairedFrom]
    · simp only [callbacksOf_append]
      exact dispatchEvent_paired B e p _ (ih (k + 1) _)

theorem dispatchEvent_pause_source (B : Bps) (e : Event) (q : Platform)
    (h : Callback.onPause ∈ callbacksOf (dispatchEvent B e q).2) :
    e.domain = B.navigatorDomain ∧ e.code = B.NAVIGATOR_WINDOW_INACTIVE := by
  unfold dispatchEvent at h
  split_ifs at h <;> simp_all [callbacksOf]

theorem dispatchEvent_paused_source (B : Bps) (e : Event) (q : Platform)
    (h : (dispatchEvent B e q).1.m_isPaused = true) :
    q.m_isPaused = true ∨ (e.domain = B.navigatorDomain ∧ e.code = B.NAVIGATOR_WINDOW_INACTIVE) := by
  unfold dispatchEvent at h
  split_ifs at h <;> simp_all

theorem dispatchEvent_resume_source (B : Bps) (e : Event) (q : Platform)
    (h : Callback.onResume ∈ callbacksOf (dispatchEvent B e q).2) :
    e.domain = B.navigatorDomain ∧ e.code = B.NAVIGATOR_WINDOW_ACTIVE ∧ q.m_isPaused = true ∧
      (dispatchEvent B e q).1.m_isPaused = false := by
  unfold dispatchEvent at h ⊢
  split_ifs at h ⊢ <;> simp_all [callbacksOf]

theorem paused_after_inactive (B : Bps) (pre : List Event) (p : Platform)
    (h0 : p.m_isPaused = false) (h : (dispatchAll B pre p).1.m_isPaused = true) :
    ∃ pre1 e0 pre2, pre = pre1 ++ e0 :: pre2 ∧ e0.domain = B.navigatorDomain ∧
      e0.code = B.NAVIGATOR_WINDOW_INACTIVE ∧
      Callback.onResume ∉ callbacksOf (dispatchAll B pre2 (dispatchAll B (pre1 ++ [e0]) p).1).2 := by
  induction pre using List.reverseRecOn with
  | nil => simp [dispatchAll, h0] at h
  | append_singleton pre x ih =>
    rw [dispatchAll_append] at h
    simp only [dispatchAll] at h
    by_cases hx : x.domain = B.navigatorDomain ∧ x.code = B.NAVIGATOR_WINDOW_INACTIVE
    · exact ⟨pre, x, [], rfl, hx.1, hx.2, by simp [dispatchAll, callbacksOf]⟩
    · rcases dispatchEvent_paused_source B x _ h with hq | hq
      · obtain ⟨pre1, e0, pre2, h1, h2, h3, h4⟩ := ih hq
        refine ⟨pre1, e0, pre2 ++ [x], by rw [h1]; simp, h2, h3, ?_⟩
        rw [dispatchAll_append, callbacksOf_append, List.mem_append]
        rintro (hm | hm)
        · exact h4 hm
        · simp only [dispatchAll, List.append_nil] at hm
          have hst : (dispatchAll B pre2 (dispatchAll B (pre1 ++ [e0]) p).1).1 =
              (dispatchAll B pre p).1 := by
            rw [h1, show pre1 ++ e0 :: pre2 = (pre1 ++ [e0]) ++ pre2 by simp,
              dispatchAll_append B (pre1 ++ [e0]) pre2]
          rw [hst] at hm
          have := (dispatchEvent_resume_source B x _ hm).2.2.2
          rw [this] at h
          cases h
      · exact absurd hq hx

theorem processLoop_consumed (B : Bps) (rc : Nat → Int) (queue : List Event) (k : Nat)
    (p : Platform) :
    ∃ n, (processLoop B rc queue k p).platform = (dispatchAll B (queue.take n) p).1 ∧
      callbacksOf (processLoop B rc queue k p).effects =
        callbacksOf (dispatchAll B (queue.take n) p).2 ∧
      (processLoop B rc queue k p).queue = queue.drop n := by
  induction queue generalizing k p with
  | nil =>
    refine ⟨0, ?_⟩
    unfold processLoop
    split_ifs <;> simp [dispatchAll, callbacksOf]
  | cons e queue ih =>
    unfold processLoop
    split_ifs
    · exact ⟨0, by simp [dispatchAll, callbacksOf]⟩
    · obtain ⟨n, h1, h2, h3⟩ := ih (k + 1) (dispatchEvent B e p).1
      exact ⟨n + 1, by simp [dispatchAll, h1], by simp [dispatchAll, callbacksOf_append, h2],
        by simp [h3]⟩

/-- C10: for every queue of events processed from a state that is not paused (navigator
events or any others, whatever the polls return): in every initial part of the trace of
handler calls there are at most as many `onResume` as `onPause`; every `onResume` in the
trace comes after an `onPause` with no `onResume` between the two; between two `onResume`
there is an `onPause`; an event for which `onResume` is called is a
`NAVIGATOR_WINDOW_ACTIVE` event of the navigator domain arriving while paused; a
`NAVIGATOR_WINDOW_ACTIVE` event arriving while not paused calls nothing and changes no
state; an event for which `onPause` is called is a `NAVIGATOR_WINDOW_INACTIVE` event of the
navigator domain, and only such an event sets `m_isPaused`; what `processEvents` does is
the dispatch, in order, of the events it takes from the queue; and whenever an event that
comes after the events `pre` has `onResume` called, it is a `NAVIGATOR_WINDOW_ACTIVE` event
and `pre` holds a `NAVIGATOR_WINDOW_INACTIVE` event of the navigator domain after which no
event of `pre` had `onResume` called. -/
theorem resume_follows_pause (B : Bps) (rc : Nat → Int) (queue : List Event) (p : Platform)
    (h0 : p.m_isPaused = false) :
    (∀ n, resumes ((callbacksOf (processEvents B rc queue p).effects).take n) ≤
        pauses ((callbacksOf (processEvents B rc queue p).effects).take n)) ∧
    (∀ a c, callbacksOf (processEvents B rc queue p).effects = a ++ Callback.onResume :: c →
        ∃ a1 a2, a = a1 ++ Callback.onPause :: a2 ∧ Callback.onResume ∉ a2) ∧
    (∀ a b c, callbacksOf (processEvents B rc queue p).effects =
        a ++ Callback.onResume :: (b ++ Callback.onResume :: c) → Callback.onPause ∈ b) ∧
    (∀ e q, Callback.onResume ∈ callbacksOf (dispatchEvent B e q).2 →
        e.domain = B.navigatorDomain ∧ e.code = B.NAVIGATOR_WINDOW_ACTIVE ∧ q.m_isPaused = true) ∧
    (∀ e q, e.domain = B.navigatorDomain → e.code = B.NAVIGATOR_WINDOW_ACTIVE →
        q.m_isPaused = false → dispatchEvent B e q = (q, [])) ∧
    (∀ e q, Callback.onPause ∈ callbacksOf (dispatchEvent B e q).2 →
        e.domain = B.navigatorDomain ∧ e.code = B.NAVIGATOR_WINDOW_INACTIVE) ∧
    (∀ e q, (dispatchEvent B e q).1.m_isPaused = true →
        q.m_isPaused = true ∨
          (e.domain = B.navigatorDomain ∧ e.code = B.NAVIGATOR_WINDOW_INACTIVE)) ∧
    (∃ n, (processEvents B rc queue p).platform = (dispatchAll B (queue.take n) p).1 ∧
        callbacksOf (processEvents B rc queue p).effects =
          callbacksOf (dispatchAll B (queue.take n) p).2 ∧
        (processEvents B rc queue p).queue = queue.drop n) ∧
    (∀ pre e, Callback.onResume ∈ callbacksOf (dispatchEvent B e (dispatchAll B pre p).1).2 →
        (e.domain = B.navigatorDomain ∧ e.code = B.NAVIGATOR_WINDOW_ACTIVE) ∧
        ∃ pre1 e0 pre2, pre = pre1 ++ e0 :: pre2 ∧ e0.domain = B.navigatorDomain ∧
          e0.code = B.NAVIGATOR_WINDOW_INACTIVE ∧
          Callback.onResume ∉
            callbacksOf (dispatchAll B pre2 (dispatchAll B (pre1 ++ [e0]) p).1).2) := by
  have hp := processLoop_paired B rc queue 0 p
  rw [h0] at hp
  refine ⟨?_, ?_, ?_, ?_, ?_, dispatchEvent_pause_source B, dispatchEvent_paused_source B,
    processLoop_consumed B rc queue 0 p, ?_⟩
  · intro n
    simpa using pairedFrom_counts false _ hp n
  · intro a c h
    have hp2 : pairedFrom false (a ++ Callback.onResume :: c) := by
      rw [← h]; exact hp
    rcases pairedFrom_resume_after_pause false a c hp2 with h1 | ⟨h1, _⟩
    · exact h1
    · cases h1
  · intro a b c h
    have hp2 : pairedFrom false (a ++ Callback.onResume :: (b ++ Callback.onResume :: c)) := by
      rw [← h]; exact hp
    obtain ⟨b2, hb2⟩ := pairedFrom_append false a _ hp2
    simp only [pairedFrom] at hb2
    rcases pairedFrom_resume_after_pause false b c hb2.2 with ⟨a1, a2, h1, _⟩ | ⟨h1, _⟩
    · rw [h1]; simp
    · cases h1
  · intro e q h
    obtain ⟨h1, h2, h3, _⟩ := dispatchEvent_resume_source B e q h
    exact ⟨h1, h2, h3⟩
  · intro e q h1 h2 h3
    have hl := B.labelsDistinct
    simp [dispatchEvent, h1, h2, h3, Ne.symm hl.2.1, Ne.symm hl.2.2]
  · intro pre e h
    obtain ⟨h1, h2, h3, _⟩ := dispatchEvent_resume_source B e _ h
    exact ⟨⟨h1, h2⟩, paused_after_inactive B pre p h0 h3⟩

/-- Witness of `resume_follows_pause`: a pause, a resume and a further window-active event,
from the state the constructor leaves. -/
theorem resume_follows_pause_witness :
    (Platform.new []).m_isPaused = false ∧
    ((∀ n, resumes ((callbacksOf (processEvents sampleBps (pollsSucceed sampleBps)
          pauseResumeQueue (Platform.new [])).effects).take n) ≤
        pauses ((callbacksOf (processEvents sampleBps (pollsSucceed sampleBps)
          pauseResumeQueue (Platform.new [])).effects).take n)) ∧
    (∀ a c, callbacksOf (processEvents sampleBps (pollsSucceed sampleBps)
          pauseResumeQueue (Platform.new [])).effects = a ++ Callback.onResume :: c →
        ∃ a1 a2, a = a1 ++ Callback.onPause :: a2 ∧ Callback.onResume ∉ a2) ∧
    (∀ a b c, callbacksOf (processEvents sampleBps (pollsSucceed sampleBps)
          pauseResumeQueue (Platform.new [])).effects =
        a ++ Callback.onResume :: (b ++ Callback.onResume :: c) → Callback.onPause ∈ b) ∧
    (∀ e q, Callback.onResume ∈ callbacksOf (dispatchEvent sampleBps e q).2 →
        e.domain = sampleBps.navigatorDomain ∧ e.code = sampleBps.NAVIGATOR_WINDOW_ACTIVE ∧
          q.m_isPaused = true) ∧
    (∀ e q, e.domain = sampleBps.navigatorDomain → e.code = sampleBps.NAVIGATOR_WINDOW_ACTIVE →
        q.m_isPaused = false → dispatchEvent sampleBps e q = (q, [])) ∧
    (∀ e q, Callback.onPause ∈ callbacksOf (dispatchEvent sampleBps e q).2 →
        e.domain = sampleBps.navigatorDomain ∧ e.code = sampleBps.NAVIGATOR_WINDOW_INACTIVE) ∧
    (∀ e q, (dispatchEvent sampleBps e q).1.m_isPaused = true →
        q.m_isPaused = true ∨
          (e.domain = sampleBps.navigatorDomain ∧
            e.code = sampleBps.NAVIGATOR_WINDOW_INACTIVE)) ∧
    (∃ n, (processEvents sampleBps (pollsSucceed sampleBps) pauseResumeQueue
          (Platform.new [])).platform =
          (dispatchAll sampleBps (pauseResumeQueue.take n) (Platform.new [])).1 ∧
        callbacksOf (processEvents sampleBps (pollsSucceed sampleBps) pauseResumeQueue
          (Platform.new [])).effects =
          callbacksOf (dispatchAll sampleBps (pauseResumeQueue.take n) (Platform.new [])).2 ∧
        (processEvents sampleBps (pollsSucceed sampleBps) pauseResumeQueue
          (Platform.new [])).queue = pauseResumeQueue.drop n) ∧
    (∀ pre e, Callback.onResume ∈
          callbacksOf (dispatchEvent sampleBps e (dispatchAll sampleBps pre (Platform.new [])).1).2 →
        (e.domain = sampleBps.navigatorDomain ∧ e.code = sampleBps.NAVIGATOR_WINDOW_ACTIVE) ∧
        ∃ pre1 e0 pre2, pre = pre1 ++ e0 :: pre2 ∧ e0.domain = sampleBps.navigatorDomain ∧
          e0.code = sampleBps.NAVIGATOR_WINDOW_INACTIVE ∧
          Callback.onResume ∉ callbacksOf
            (dispatchAll sampleBps pre2 (dispatchAll sampleBps (pre1 ++ [e0]) (Platform.new [])).1).2)) :=
  ⟨rfl, resume_follows_pause sampleBps (pollsSucceed sampleBps) pauseResumeQueue
    (Platform.new []) rfl⟩

/-! ## The in-progress guards -/

theorem exec_clear (E : Engine) (op : Op) (p : Platform) (h : p.flags = Flags.clear) :
    (op.exec E p).1.flags = Flags.clear ∧ (callbacksOf (op.exec E p).2).length = 1 := by
  simp only [Platform.flags, Flags.clear, Flags.mk.injEq] at h
  obtain ⟨h1, h2, h3⟩ := h
  cases op <;>
    simp [Op.exec, submitScore, submitScoreComplete, fetchLeaderboard, fetchLeaderboardComplete,
      fetchUser, submitUserName, fetchUserComplete, Platform.flags, Flags.clear, h1, h2, h3,
      callbacksOf_append, callbacksOf_logs, callbacksOf]

theorem run_clear (E : Engine) (s : Script) (p : Platform) (h : p.flags = Flags.clear) :
    (s.run E p).1.flags = Flags.clear ∧
    (∀ o ∈ (s.run E p).2, o.flags = Flags.clear) ∧
    ((s.run E p).2.filter Obs.isEntry).length = s.size ∧
    ((s.run E p).2.filter (fun o => !o.isEntry)).length = s.size := by
  induction s generalizing p with
  | done => simp [Script.run, Script.size, h]
  | call op inner next ihi ihn =>
    obtain ⟨hf, hc⟩ := exec_clear E op p h
    have hne : callbacksOf (op.exec E p).2 ≠ [] := by
      intro h0; rw [h0] at hc; simp at hc
    obtain ⟨c, hc1⟩ := List.length_eq_one.mp hc
    obtain ⟨i1, i2, i3, i4⟩ := ihi _ hf
    obtain ⟨n1, n2, n3, n4⟩ := ihn _ i1
    have e1 : ∀ o f, Obs.isEntry (Obs.entry o f) = true := fun _ _ => rfl
    have e2 : ∀ o f, Obs.isEntry (Obs.handler o f) = false := fun _ _ => rfl
    simp only [Script.run, hne, if_false, Script.size]
    refine ⟨n1, ?_, ?_, ?_⟩
    · intro o ho
      simp only [List.mem_cons, List.mem_append, List.mem_map] at ho
      rcases ho with rfl | ⟨⟨c, _, rfl⟩ | ho⟩ | ho
      · exact h
      · exact hf
      · exact i2 o ho
      · exact n2 o ho
    · rw [hc1]
      simp [List.filter_cons, e1, e2, i3, n3]
      omega
    · rw [hc1]
      simp [List.filter_cons, e1, e2, i4, n4]
      omega

/-- C5: from the state the constructor leaves, whatever the table, and for every script of
`submitScore`, `fetchLeaderboard`, `fetchUser` and `submitUserName` calls, calls made from
inside the handler included and whatever the SQLite calls return: the three in-progress
flags are all false at the entry of every operation and at every call of the handler, every
call of the script is made and calls the handler once (none is rejected by its guard), and
the flags are false at the end. -/
theorem guards_never_observed (E : Engine) (s : Script) (t : Table) :
    (∀ o ∈ (s.run E (Platform.new t)).2, o.flags = Flags.clear) ∧
    ((s.run E (Platform.new t)).2.filter Obs.isEntry).length = s.size ∧
    ((s.run E (Platform.new t)).2.filter (fun o => !o.isEntry)).length = s.size ∧
    (s.run E (Platform.new t)).1.flags = Flags.clear := by
  obtain ⟨h1, h2, h3, h4⟩ := run_clear E s (Platform.new t) rfl
  exact ⟨h2, h3, h4, h1⟩

/-- Witness of `guards_never_observed`: a script with calls nested two handlers deep. -/
theorem guards_never_observed_witness :
    (∀ o ∈ (nestedScript.run stableEngine (Platform.new fullTable)).2, o.flags = Flags.clear) ∧
    ((nestedScript.run stableEngine (Platform.new fullTable)).2.filter Obs.isEntry).length =
      nestedScript.size ∧
    ((nestedScript.run stableEngine (Platform.new fullTable)).2.filter
      (fun o => !o.isEntry)).length = nestedScript.size ∧
    (nestedScript.run stableEngine (Platform.new fullTable)).1.flags = Flags.clear :=
  guards_never_observed stableEngine nestedScript fullTable

/-! ## The five largest scores -/

theorem take_orderedInsert (x : Int) (s : List Int) (k : Nat) :
    (List.orderedInsert (fun a b : Int => b ≤ a) x s).take k =
      (List.orderedInsert (fun a b : Int => b ≤ a) x (s.take k)).take k := by
  induction s generalizing k with
  | nil => simp
  | cons b s ih =>
    cases k with
    | zero => simp
    | succ k =>
      simp only [List.take_succ_cons, List.orderedInsert]
      split_ifs with h
      · cases k with
        | zero => simp
        | succ k => simp [List.take_take]
      · simp only [List.take_succ_cons, List.cons.injEq, true_and]
        exact ih k

theorem sortDesc_sorted (l : List Int) :
    (l.insertionSort (fun a b : Int => b ≤ a)).Sorted (fun a b : Int => b ≤ a) := by
  haveI : IsTotal Int (fun a b : Int => b ≤ a) := ⟨fun a b => le_total b a⟩
  haveI : IsTrans Int (fun a b : Int => b ≤ a) := ⟨fun _ _ _ h1 h2 => le_trans h2 h1⟩
  exact List.sorted_insertionSort _ l

theorem sortDesc_unique (l s : List Int) (hp : s.Perm l)
    (hs : s.Pairwise (fun a b : Int => b ≤ a)) :
    s = l.insertionSort (fun a b : Int => b ≤ a) := by
  haveI : IsAntisymm Int (fun a b : Int => b ≤ a) := ⟨fun _ _ h1 h2 => le_antisymm h2 h1⟩
  exact List.eq_of_perm_of_sorted (hp.trans (List.perm_insertionSort _ l).symm) hs
    (sortDesc_sorted l)

theorem topScores_perm (l1 l2 : List Int) (h : l1.Perm l2) : topScores l1 = topScores l2 := by
  unfold topScores
  rw [sortDesc_unique l2 (l1.insertionSort _) ((List.perm_insertionSort _ l1).trans h)
    (sortDesc_sorted l1)]

theorem topScores_sorted (l : List Int) : (topScores l).Pairwise (fun a b : Int => b ≤ a) :=
  List.Pairwise.sublist (List.take_sublist _ _) (sortDesc_sorted l)

theorem topScores_cons (x : Int) (l : List Int) :
    topScores (x :: topScores l) = topScores (x :: l) := by
  have h : (topScores l).insertionSort (fun a b : Int => b ≤ a) = topScores l :=
    List.Sorted.insertionSort_eq (topScores_sorted l)
  unfold topScores at h ⊢
  rw [List.insertionSort, List.insertionSort, h, ← take_orderedInsert]

theorem topScores_idem (l : List Int) : topScores (topScores l) = topScores l := by
  have h : (topScores l).insertionSort (fun a b : Int => b ≤ a) = topScores l :=
    List.Sorted.insertionSort_eq (topScores_sorted l)
  unfold topScores at h ⊢
  rw [h, List.take_take, min_self]

theorem topScores_length (l : List Int) : (topScores l).length = min 5 l.length := by
  unfold topScores
  rw [List.length_take, List.length_insertionSort]

theorem mem_topScores (l : List Int) (x : Int) (h : x ∈ topScores l) : x ∈ l :=
  (List.mem_insertionSort _).mp (List.mem_of_mem_take h)

theorem sqlTop5_scores (E : Engine) (t : Table) :
    (sqlTop5 E t).map Row.score = topScores (t.map Row.score) := by
  unfold sqlTop5 topScores
  rw [List.map_take]
  congr 1
  apply sortDesc_unique
  · exact (E.perm t).map _
  · exact List.pairwise_map.mpr (E.sorted t)

theorem sqlite3_column_int_of_isInt (v : Int) (h : isInt v) : sqlite3_column_int v = v := by
  unfold isInt INT_MIN INT_MAX at h
  unfold sqlite3_column_int INT64_MIN INT64_MAX
  omega

/-! ## Fetching the leaderboard -/

theorem fetchLeaderboard_ok (E : Engine) (p : Platform)
    (h : p.m_leaderboardOperationInProgress = false) :
    fetchLeaderboard E SelectRcs.ok p =
      ({ p with m_leaderboard := fetchLoop (sqlTop5 E p.db) 1 [] },
        [Effect.callback (Callback.onLeaderboardReady (fetchLoop (sqlTop5 E p.db) 1 []))]) := by
  cases p
  simp only at h
  subst h
  simp [fetchLeaderboard, fetchLeaderboardComplete, fetchLocalScores, SelectRcs.ok, sqlSelectRows]

theorem sqlTop5_split (E : Engine) (t : Table) :
    (sqlTop5 E t ++ (E.orderByScoreDesc t).drop 5).Perm t ∧
      ∀ a ∈ sqlTop5 E t, ∀ b ∈ (E.orderByScoreDesc t).drop 5, b.score ≤ a.score := by
  unfold sqlTop5
  constructor
  · rw [List.take_append_drop]; exact E.perm t
  · have hs := E.sorted t
    rw [← List.take_append_drop 5 (E.orderByScoreDesc t), List.pairwise_append] at hs
    exact hs.2.2

theorem top_values_of_isInt (E : Engine) (t : Table) (h : ∀ r ∈ t, isInt r.score) :
    (sqlTop5 E t).map (fun r => sqlite3_column_int r.score) = (sqlTop5 E t).map Row.score := by
  apply List.map_congr_left
  intro r hr
  exact sqlite3_column_int_of_isInt _
    (h r ((E.perm t).subset (List.mem_of_mem_take hr)))

/-- C3 (amended): with the guard flag clear, the select statement preparing and stepping
without error, and every stored score within the range of `int`, `fetchLeaderboard` hands
to `onLeaderboardReady` the leaderboard it stored, whatever `m_leaderboard` held before;
it has `min(5, n)` entries for a table of `n` rows, its values are non-increasing, its
values and names are those of the first five rows of the table in descending order of
score, those rows and the remaining ones make up the table and no remaining row has a
higher score than one of them; and a second fetch right after the first gives the same
state and the same list. -/
theorem fetchLeaderboard_top5 (E : Engine) (p : Platform)
    (hflag : p.m_leaderboardOperationInProgress = false)
    (hrange : ∀ r ∈ p.db, isInt r.score) :
    callbacksOf (fetchLeaderboard E SelectRcs.ok p).2 =
      [Callback.onLeaderboardReady (fetchLeaderboard E SelectRcs.ok p).1.m_leaderboard] ∧
    (fetchLeaderboard E SelectRcs.ok p).1.m_leaderboard.length = min 5 p.db.length ∧
    ((fetchLeaderboard E SelectRcs.ok p).1.m_leaderboard.map Score.value).Pairwise
      (fun a b => b ≤ a) ∧
    (fetchLeaderboard E SelectRcs.ok p).1.m_leaderboard.map Score.value =
      (sqlTop5 E p.db).map Row.score ∧
    (fetchLeaderboard E SelectRcs.ok p).1.m_leaderboard.map Score.name =
      (sqlTop5 E p.db).map Row.name ∧
    (sqlTop5 E p.db ++ (E.orderByScoreDesc p.db).drop 5).Perm p.db ∧
    (∀ a ∈ sqlTop5 E p.db, ∀ b ∈ (E.orderByScoreDesc p.db).drop 5, b.score ≤ a.score) ∧
    (∀ old, (fetchLeaderboard E SelectRcs.ok { p with m_leaderboard := old }) =
      fetchLeaderboard E SelectRcs.ok p) ∧
    fetchLeaderboard E SelectRcs.ok (fetchLeaderboard E SelectRcs.ok p).1 =
      fetchLeaderboard E SelectRcs.ok p := by
  have hv : (fetchLoop (sqlTop5 E p.db) 1 []).map Score.value = (sqlTop5 E p.db).map Row.score := by
    rw [fetchLoop_values, top_values_of_isInt E p.db hrange]
  rw [fetchLeaderboard_ok E p hflag]
  refine ⟨rfl, ?_, ?_, hv, fetchLoop_names _ _, (sqlTop5_split E p.db).1,
    (sqlTop5_split E p.db).2, ?_, ?_⟩
  · simp only [fetchLoop_length, sqlTop5_length]
  · simp only [hv, sqlTop5_scores]
    exact topScores_sorted _
  · intro old
    rw [fetchLeaderboard_ok E { p with m_leaderboard := old } hflag]
  · exact fetchLeaderboard_ok E { p with m_leaderboard := fetchLoop (sqlTop5 E p.db) 1 [] } hflag

/-- Witness of `fetchLeaderboard_top5`: a table of five rows and a stale leaderboard. -/
theorem fetchLeaderboard_top5_witness :
    ((staleBoard.m_leaderboardOperationInProgress = false) ∧
      (∀ r ∈ staleBoard.db, isInt r.score)) ∧
    (callbacksOf (fetchLeaderboard stableEngine SelectRcs.ok staleBoard).2 =
      [Callback.onLeaderboardReady
        (fetchLeaderboard stableEngine SelectRcs.ok staleBoard).1.m_leaderboard] ∧
    (fetchLeaderboard stableEngine SelectRcs.ok staleBoard).1.m_leaderboard.length =
      min 5 staleBoard.db.length ∧
    ((fetchLeaderboard stableEngine SelectRcs.ok staleBoard).1.m_leaderboard.map
      Score.value).Pairwise (fun a b => b ≤ a) ∧
    (fetchLeaderboard stableEngine SelectRcs.ok staleBoard).1.m_leaderboard.map Score.value =
      (sqlTop5 stableEngine staleBoard.db).map Row.score ∧
    (fetchLeaderboard stableEngine SelectRcs.ok staleBoard).1.m_leaderboard.map Score.name =
      (sqlTop5 stableEngine staleBoard.db).map Row.name ∧
    (sqlTop5 stableEngine staleBoard.db ++
      (stableEngine.orderByScoreDesc staleBoard.db).drop 5).Perm staleBoard.db ∧
    (∀ a ∈ sqlTop5 stableEngine staleBoard.db,
      ∀ b ∈ (stableEngine.orderByScoreDesc staleBoard.db).drop 5, b.score ≤ a.score) ∧
    (∀ old, (fetchLeaderboard stableEngine SelectRcs.ok { staleBoard with m_leaderboard := old }) =
      fetchLeaderboard stableEngine SelectRcs.ok staleBoard) ∧
    fetchLeaderboard stableEngine SelectRcs.ok
        (fetchLeaderboard stableEngine SelectRcs.ok staleBoard).1 =
      fetchLeaderboard stableEngine SelectRcs.ok staleBoard) :=
  ⟨⟨rfl, by decide⟩, fetchLeaderboard_top5 stableEngine staleBoard rfl (by decide)⟩

/-- C3 (counterexample): on a table of one row, when the prepare of the select fails
`fetchLeaderboard` hands an empty list to `onLeaderboardReady`, not one of length
`min(5, 1)`; and on a table holding a score beyond the range of `int`, with every statement
succeeding, the values handed over are 0 then 5, which is not non-increasing. -/
theorem fetchLeaderboard_short_or_unordered :
    (callbacksOf (fetchLeaderboard stableEngine selectPrepareFails (Platform.new oneRowTable)).2 =
        [Callback.onLeaderboardReady []] ∧
      ([] : List Score).length ≠ min 5 oneRowTable.length) ∧
    (callbacksOf (fetchLeaderboard stableEngine SelectRcs.ok (Platform.new wideTable)).2 =
        [Callback.onLeaderboardReady [⟨1, "User1", 0⟩, ⟨2, "User1", 5⟩]] ∧
      ¬ ([⟨1, "User1", 0⟩, ⟨2, "User1", 5⟩] : List Score).Pairwise
        (fun a b => b.value ≤ a.value)) := by
  decide

/-! ## Submitting scores one at a time -/

theorem submitScore_ok (E : Engine) (x : Int) (p : Platform)
    (h : p.m_scoreOperationInProgress = false) :
    (submitScore E InsertRcs.ok x p).1 = { p with db := sqlPurge E (sqlInsert p.db "User1" x) } := by
  cases p
  simp only at h
  subst h
  simp [submitScore, submitScoreComplete, submitLocalScore, InsertRcs.ok, SQLITE_OK, SQLITE_DONE]

theorem sqlPurge_scores (E : Engine) (t : Table) (h : t.WF) :
    ((sqlPurge E t).map Row.score).Perm (topScores (t.map Row.score)) := by
  rw [← sqlTop5_scores]
  exact (sqlPurge_perm E t h).map _

theorem submitAll_invariant (E : Engine) (xs : List Int) (p : Platform) (S : List Int)
    (h1 : p.m_scoreOperationInProgress = false) (h2 : p.db.WF)
    (h3 : ∀ r ∈ p.db, r.name = "User1") (h4 : (p.db.map Row.score).Perm (topScores S)) :
    (submitAll E xs p).m_leaderboardOperationInProgress = p.m_leaderboardOperationInProgress ∧
    (submitAll E xs p).db.WF ∧
    (∀ r ∈ (submitAll E xs p).db, r.name = "User1") ∧
    ((submitAll E xs p).db.map Row.score).Perm (topScores (xs.reverse ++ S)) := by
  induction xs generalizing p S with
  | nil => exact ⟨rfl, h2, h3, h4⟩
  | cons x xs ih =>
    have hstep := submitScore_ok E x p h1
    have hwf : (sqlInsert p.db "User1" x).WF := sqlInsert_WF _ _ _ h2
    have ih2 := ih (submitScore E InsertRcs.ok x p).1 (x :: S) (by rw [hstep]; exact h1)
      (by rw [hstep]; exact sqlPurge_WF E _ hwf)
      (by
        rw [hstep]
        intro r hr
        have hr2 : r ∈ sqlInsert p.db "User1" x := List.mem_of_mem_filter hr
        rcases List.mem_append.mp hr2 with hr3 | hr3
        · exact h3 r hr3
        · rw [List.mem_singleton.mp hr3])
      (by
        rw [hstep]
        refine (sqlPurge_scores E _ hwf).trans ?_
        have hp : ((sqlInsert p.db "User1" x).map Row.score).Perm (x :: topScores S) := by
          simp only [sqlInsert, List.map_append, List.map_cons, List.map_nil]
          exact List.perm_append_singleton x _ |>.trans (List.Perm.cons x h4)
        rw [topScores_perm _ _ hp, topScores_cons])
    obtain ⟨a, b, c, d⟩ := ih2
    refine ⟨?_, b, c, ?_⟩
    · show (submitAll E xs (submitScore E InsertRcs.ok x p).1).m_leaderboardOperationInProgress = _
      rw [a, hstep]
    · show ((submitAll E xs (submitScore E InsertRcs.ok x p).1).db.map Row.score).Perm _
      rw [List.reverse_cons, List.append_assoc]
      exact d

theorem keepAll_scores (xs : List Int) (t : Table) :
    (keepAll xs t).map Row.score = t.map Row.score ++ xs ∧
      ((∀ r ∈ t, r.name = "User1") → ∀ r ∈ keepAll xs t, r.name = "User1") := by
  induction xs generalizing t with
  | nil => simp [keepAll]
  | cons x xs ih =>
    have h := ih (sqlInsert t "User1" x)
    refine ⟨?_, ?_⟩
    · show (keepAll xs (sqlInsert t "User1" x)).map Row.score = _
      rw [h.1]
      simp [sqlInsert]
    · intro ht
      apply h.2
      intro r hr
      rcases List.mem_append.mp hr with hr3 | hr3
      · exact ht r hr3
      · rw [List.mem_singleton.mp hr3]

theorem score_list_ext (l1 l2 : List Score) (h1 : l1.map Score.rank = l2.map Score.rank)
    (h2 : l1.map Score.name = l2.map Score.name) (h3 : l1.map Score.value = l2.map Score.value) :
    l1 = l2 := by
  induction l1 generalizing l2 with
  | nil => cases l2 <;> simp_all
  | cons a l1 ih =>
    cases l2 with
    | nil => simp at h1
    | cons b l2 =>
      simp only [List.map_cons, List.cons.injEq] at h1 h2 h3
      rw [ih l2 h1.2 h2.2 h3.2]
      cases a; cases b
      simp_all

theorem names_replicate (rows : List Row) (h : ∀ r ∈ rows, r.name = "User1") :
    rows.map Row.name = List.replicate rows.length "User1" := by
  induction rows with
  | nil => rfl
  | cons r rows ih =>
    simp only [List.map_cons, List.length_cons, List.replicate_succ]
    rw [h r (List.mem_cons_self _ _), ih (fun r hr => h r (List.mem_cons_of_mem _ hr))]

/-- What a fetch delivers from a table whose rows are all named "User1" and whose scores are
a rearrangement of the five largest of `xs`, all within the range of `int`. -/
theorem fetch_of_top (E : Engine) (t : Table) (xs : List Int) (hx : ∀ x ∈ xs, isInt x)
    (hn : ∀ r ∈ t, r.name = "User1") (hs : topScores (t.map Row.score) = topScores xs) :
    (fetchLoop (sqlTop5 E t) 1 []).map Score.value = topScores xs ∧
    (fetchLoop (sqlTop5 E t) 1 []).map Score.name = List.replicate (min 5 xs.length) "User1" ∧
    (fetchLoop (sqlTop5 E t) 1 []).map Score.rank = ranksUpTo (min 5 xs.length) ∧
    (fetchLoop (sqlTop5 E t) 1 []).length = min 5 xs.length := by
  have hlen : (sqlTop5 E t).length = min 5 xs.length := by
    rw [← List.length_map (sqlTop5 E t) Row.score, sqlTop5_scores, hs, topScores_length]
  have hsc : (sqlTop5 E t).map Row.score = topScores xs := by rw [sqlTop5_scores, hs]
  have hval : (sqlTop5 E t).map (fun r => sqlite3_column_int r.score) = topScores xs := by
    rw [← hsc]
    apply List.map_congr_left
    intro r hr
    apply sqlite3_column_int_of_isInt
    apply hx
    apply mem_topScores
    rw [← hsc]
    exact List.mem_map_of_mem _ hr
  refine ⟨?_, ?_, ?_, ?_⟩
  · rw [fetchLoop_values, hval]
  · have hmem : ∀ r ∈ sqlTop5 E t, r.name = "User1" :=
      fun r hr => hn r ((E.perm t).subset (List.mem_of_mem_take hr))
    rw [fetchLoop_names, names_replicate _ hmem, hlen]
  · rw [fetchLoop_ranks, hlen, ranksUpTo_eq]
  · rw [fetchLoop_length, hlen]

/-- C1: starting from an empty table, after the `int` scores `xs` are submitted one at a
time with `submitScore`, every statement succeeding, a `fetchLeaderboard` hands to
`onLeaderboardReady` a leaderboard whose values are the `min(5, n)` largest of `xs`, largest
first, each equal to the submitted `int`, every name "User1", the ranks 1, 2, ...; the
listed values together with the rest of the sorted scores make up `xs`, and none of the
rest is larger than a listed one.  The leaderboard is the one fetched from the table that
keeps every score and purges nothing.  This holds however the engine orders rows of equal
score, in the purge and in the select. -/
theorem leaderboard_roundtrip (E E' : Engine) (xs : List Int) (hx : ∀ x ∈ xs, isInt x) :
    callbacksOf (fetchLeaderboard E' SelectRcs.ok (submitAll E xs (Platform.new []))).2 =
      [Callback.onLeaderboardReady
        (fetchLeaderboard E' SelectRcs.ok (submitAll E xs (Platform.new []))).1.m_leaderboard] ∧
    (fetchLeaderboard E' SelectRcs.ok (submitAll E xs (Platform.new []))).1.m_leaderboard.map
      Score.value = topScores xs ∧
    (fetchLeaderboard E' SelectRcs.ok (submitAll E xs (Platform.new []))).1.m_leaderboard.map
      Score.name = List.replicate (min 5 xs.length) "User1" ∧
    (fetchLeaderboard E' SelectRcs.ok (submitAll E xs (Platform.new []))).1.m_leaderboard.map
      Score.rank = ranksUpTo (min 5 xs.length) ∧
    (fetchLeaderboard E' SelectRcs.ok (submitAll E xs (Platform.new []))).1.m_leaderboard.length =
      min 5 xs.length ∧
    (topScores xs).Pairwise (fun a b => b ≤ a) ∧
    (topScores xs ++ (xs.insertionSort (fun a b => b ≤ a)).drop 5).Perm xs ∧
    (∀ a ∈ topScores xs, ∀ b ∈ (xs.insertionSort (fun a b => b ≤ a)).drop 5, b ≤ a) ∧
    callbacksOf (fetchLeaderboard E' SelectRcs.ok (Platform.new (keepAll xs []))).2 =
      callbacksOf (fetchLeaderboard E' SelectRcs.ok (submitAll E xs (Platform.new []))).2 := by
  obtain ⟨i1, _, i3, i4⟩ := submitAll_invariant E xs (Platform.new []) [] rfl
    (by simp [Table.WF, Platform.new]) (by simp [Platform.new])
    (by simp [Platform.new, topScores])
  have hflag : (submitAll E xs (Platform.new [])).m_leaderboardOperationInProgress = false := i1
  have hs : topScores ((submitAll E xs (Platform.new [])).db.map Row.score) = topScores xs := by
    rw [topScores_perm _ _ i4, topScores_idem, List.append_nil,
      topScores_perm _ _ (List.reverse_perm xs)]
  obtain ⟨f1, f2, f3, f4⟩ := fetch_of_top E' _ xs hx i3 hs
  have hk := keepAll_scores xs []
  obtain ⟨g1, g2, g3, _⟩ := fetch_of_top E' (keepAll xs []) xs hx (hk.2 (by simp))
    (by rw [hk.1]; rfl)
  have hsorted := sortDesc_sorted xs
  rw [fetchLeaderboard_ok E' _ hflag, fetchLeaderboard_ok E' (Platform.new (keepAll xs [])) rfl]
  refine ⟨rfl, f1, f2, f3, f4, topScores_sorted xs, ?_, ?_, ?_⟩
  · unfold topScores
    rw [List.take_append_drop]
    exact List.perm_insertionSort _ xs
  · unfold topScores
    rw [← List.take_append_drop 5 (xs.insertionSort (fun a b => b ≤ a))] at hsorted
    exact (List.pairwise_append.mp hsorted).2.2
  · simp only [callbacksOf]
    have he := score_list_ext _ _ (g3.trans f3.symm) (g2.trans f2.symm) (g1.trans f1.symm)
    show [Callback.onLeaderboardReady (fetchLoop (sqlTop5 E' (keepAll xs [])) 1 [])] = _
    rw [he]

/-- Witness of `leaderboard_roundtrip`: seven scores with a tie among the largest. -/
theorem leaderboard_roundtrip_witness :
    (∀ x ∈ [3, 9, 1, 9, 4, 7, 2], isInt x) ∧
    (callbacksOf (fetchLeaderboard stableEngine SelectRcs.ok
        (submitAll stableEngine [3, 9, 1, 9, 4, 7, 2] (Platform.new []))).2 =
      [Callback.onLeaderboardReady
        (fetchLeaderboard stableEngine SelectRcs.ok
          (submitAll stableEngine [3, 9, 1, 9, 4, 7, 2] (Platform.new []))).1.m_leaderboard] ∧
    (fetchLeaderboard stableEngine SelectRcs.ok
        (submitAll stableEngine [3, 9, 1, 9, 4, 7, 2] (Platform.new []))).1.m_leaderboard.map
      Score.value = topScores [3, 9, 1, 9, 4, 7, 2] ∧
    (fetchLeaderboard stableEngine SelectRcs.ok
        (submitAll stableEngine [3, 9, 1, 9, 4, 7, 2] (Platform.new []))).1.m_leaderboard.map
      Score.name = List.replicate (min 5 [3, 9, 1, 9, 4, 7, 2].length) "User1" ∧
    (fetchLeaderboard stableEngine SelectRcs.ok
        (submitAll stableEngine [3, 9, 1, 9, 4, 7, 2] (Platform.new []))).1.m_leaderboard.map
      Score.rank = ranksUpTo (min 5 [3, 9, 1, 9, 4, 7, 2].length) ∧
    (fetchLeaderboard stableEngine SelectRcs.ok
        (submitAll stableEngine [3, 9, 1, 9, 4, 7, 2] (Platform.new []))).1.m_leaderboard.length =
      min 5 [3, 9, 1, 9, 4, 7, 2].length ∧
    (topScores [3, 9, 1, 9, 4, 7, 2]).Pairwise (fun a b => b ≤ a) ∧
    (topScores [3, 9, 1, 9, 4, 7, 2] ++
      ([3, 9, 1, 9, 4, 7, 2].insertionSort (fun a b => b ≤ a)).drop 5).Perm
        [3, 9, 1, 9, 4, 7, 2] ∧
    (∀ a ∈ topScores [3, 9, 1, 9, 4, 7, 2],
      ∀ b ∈ ([3, 9, 1, 9, 4, 7, 2].insertionSort (fun a b => b ≤ a)).drop 5, b ≤ a) ∧
    callbacksOf (fetchLeaderboard stableEngine SelectRcs.ok
        (Platform.new (keepAll [3, 9, 1, 9, 4, 7, 2] []))).2 =
      callbacksOf (fetchLeaderboard stableEngine SelectRcs.ok
        (submitAll stableEngine [3, 9, 1, 9, 4, 7, 2] (Platform.new []))).2) :=
  ⟨by decide, leaderboard_roundtrip stableEngine stableEngine [3, 9, 1, 9, 4, 7, 2] (by decide)⟩

end blocks
